import Mathlib

/-!
Verification of the BomberBoy character core
(`source/core/game_objects/Character/Character.py`).

The embedding below translates the character state machine, the
movement-and-collision resolver (`Character.__move`), and the
bomb/speed resource bookkeeping into Lean.  Positions are rationals
(the Python code uses floats but performs only field operations,
`int(...)` truncation and `%`), tile codes are integers, and the
numeric constants of the (absent) `Constants` module are abstracted
into a `Consts` record so every theorem is proved for all constant
values.
-/

/-- The `CharacterEvents` enumeration, as used by `Character.py`
(the `ObjectEvents` module itself only declares these identifiers). -/
inductive CharacterEvents where
  | stopUp
  | stopDown
  | stopLeft
  | stopRight
  | moveUp
  | moveDown
  | moveLeft
  | moveRight
  | win
  | die
  | increaseSpeed
  | increaseBomb
  | increaseFire
  deriving DecidableEq, Repr

/-- The pygame key identifiers the character reacts to; every other
key id behaves identically, collapsed into `other`. -/
inductive PyKey where
  | left
  | right
  | up
  | down
  | other
  deriving DecidableEq, Repr

/-- Modelled from the spec: the `Constants` module is not part of the
sources, so the numeric constants (`SQUARE_SIZE`, `MAX_SPEED`,
`SPEED_INCREMENT`, `FIRE_INCREMENT`, and the six obstacle tile codes
`UNIT_BLOCK`, `UNIT_FIXED_BLOCK`, `UNIT_BOMB`,
`UNIT_POWERUP_FIRE_HIDE`, `UNIT_POWERUP_VELOCITY_HIDE`,
`UNIT_POWERUP_BOMB_HIDE`) are kept abstract. -/
structure Consts where
  squareSize : ℚ
  maxSpeed : ℚ
  speedIncrement : ℚ
  fireIncrement : ℚ
  unitBlock : ℤ
  unitFixedBlock : ℤ
  unitBomb : ℤ
  unitPowerupFireHide : ℤ
  unitPowerupVelocityHide : ℤ
  unitPowerupBombHide : ℤ

/-- Python `int(q)`: truncation toward zero. -/
def pyint (q : ℚ) : ℤ := if 0 ≤ q then ⌊q⌋ else ⌈q⌉

/-- Python `a % b` on floats: `a - b * floor (a / b)`. -/
def pymod (a b : ℚ) : ℚ := a - b * ⌊a / b⌋

/-- A tilemap is read as `tilemap[row, col]`, yielding a tile code. -/
abbrev Tilemap := ℤ → ℤ → ℤ

/-- The `obstacles` array built at the top of `Character.__move`. -/
def obstacles (K : Consts) : List ℤ :=
  [K.unitBlock, K.unitFixedBlock, K.unitBomb, K.unitPowerupFireHide,
   K.unitPowerupVelocityHide, K.unitPowerupBombHide]

/-- `np.any(obstacles == tilemap[r, c])`: the sampled tile code is one
of the six obstacle codes. -/
def isObstacle (K : Consts) (code : ℤ) : Bool := (obstacles K).contains code

/-- The state `Character.__move` threads through its four direction
blocks: the pose coordinates, the direction tuple and the event. -/
structure MoveOut where
  px : ℚ
  py : ℚ
  dir : ℤ × ℤ
  ev : Option CharacterEvents
  deriving DecidableEq, Repr

/-- Lines 269-292 of `Character.py`: the `MOVE_UP` block of `__move`.
Each block acts only when the current event matches its direction, so
recomputing the Python local variables (`x`, `x_tile`, `y`, `y_tile`)
from the threaded state coincides with the source, where they are
captured before any block that could act has run. -/
def upBlock (K : Consts) (tm : Tilemap) (s : MoveOut) : MoveOut :=
  let sq := K.squareSize
  let x := s.px
  let x_tile := pyint (x / sq)
  let m := pymod x sq
  let y := s.py + sq / 2
  let y_tile := pyint (y / sq)
  if s.ev = some CharacterEvents.moveUp then
    if isObstacle K (tm (y_tile - 1) x_tile) = false then
      if sq * (45/100) < m ∧ m < sq * (55/100) then
        { s with px := ((x_tile : ℚ) + 1/2) * sq }
      else if m ≤ sq * (45/100) then
        { s with dir := (1, 0), ev := some CharacterEvents.moveRight }
      else
        { s with dir := (-1, 0), ev := some CharacterEvents.moveLeft }
    else if isObstacle K (tm (y_tile - 1) (x_tile - 1)) = false ∧
        0 < m ∧ m < sq / 4 then
      { s with dir := (-1, 0), ev := some CharacterEvents.moveLeft }
    else if isObstacle K (tm (y_tile - 1) (x_tile + 1)) = false ∧
        3 * sq / 4 < m ∧ m < sq then
      { s with dir := (1, 0), ev := some CharacterEvents.moveRight }
    else
      { s with dir := (0, 0), ev := some CharacterEvents.stopUp }
  else s

/-- Lines 294-317 of `Character.py`: the `MOVE_DOWN` block of `__move`.
Note the near-left corner-assist band is `0 <= x % sq < sq / 4` here,
against the strict `0 < x % sq` of the `MOVE_UP` block. -/
def downBlock (K : Consts) (tm : Tilemap) (s : MoveOut) : MoveOut :=
  let sq := K.squareSize
  let x := s.px
  let x_tile := pyint (x / sq)
  let m := pymod x sq
  let y := s.py - sq / 2 - 1
  let y_tile := pyint (y / sq)
  if s.ev = some CharacterEvents.moveDown then
    if isObstacle K (tm (y_tile + 1) x_tile) = false then
      if sq * (45/100) < m ∧ m < sq * (55/100) then
        { s with px := ((x_tile : ℚ) + 1/2) * sq }
      else if m ≤ sq * (45/100) then
        { s with dir := (1, 0), ev := some CharacterEvents.moveRight }
      else
        { s with dir := (-1, 0), ev := some CharacterEvents.moveLeft }
    else if isObstacle K (tm (y_tile + 1) (x_tile - 1)) = false ∧
        0 ≤ m ∧ m < sq / 4 then
      { s with dir := (-1, 0), ev := some CharacterEvents.moveLeft }
    else if isObstacle K (tm (y_tile + 1) (x_tile + 1)) = false ∧
        3 * sq / 4 < m ∧ m < sq then
      { s with dir := (1, 0), ev := some CharacterEvents.moveRight }
    else
      { s with dir := (0, 0), ev := some CharacterEvents.stopDown }
  else s

/-- Lines 319-345 of `Character.py`: the `MOVE_RIGHT` block of
`__move` (`y`/`y_tile` recomputed from the pose, `x` sampled at
`pose.x - sq/2 - 1`). -/
def rightBlock (K : Consts) (tm : Tilemap) (s : MoveOut) : MoveOut :=
  let sq := K.squareSize
  let y := s.py
  let y_tile := pyint (y / sq)
  let g := pymod y sq
  let x := s.px - sq / 2 - 1
  let x_tile := pyint (x / sq)
  if s.ev = some CharacterEvents.moveRight then
    if isObstacle K (tm y_tile (x_tile + 1)) = false then
      if sq * (45/100) < g ∧ g < sq * (55/100) then
        { s with py := ((y_tile : ℚ) + 1/2) * sq }
      else if g ≤ sq * (45/100) then
        { s with dir := (0, 1), ev := some CharacterEvents.moveDown }
      else
        { s with dir := (0, -1), ev := some CharacterEvents.moveUp }
    else if isObstacle K (tm (y_tile - 1) (x_tile + 1)) = false ∧
        0 ≤ g ∧ g < sq / 4 then
      { s with dir := (0, -1), ev := some CharacterEvents.moveUp }
    else if isObstacle K (tm (y_tile + 1) (x_tile + 1)) = false ∧
        3 * sq / 4 < g ∧ g < sq then
      { s with dir := (0, 1), ev := some CharacterEvents.moveDown }
    else
      { s with dir := (0, 0), ev := some CharacterEvents.stopRight }
  else s

/-- Lines 347-370 of `Character.py`: the `MOVE_LEFT` block of `__move`
(`x` sampled at `pose.x + sq/2`). -/
def leftBlock (K : Consts) (tm : Tilemap) (s : MoveOut) : MoveOut :=
  let sq := K.squareSize
  let y := s.py
  let y_tile := pyint (y / sq)
  let g := pymod y sq
  let x := s.px + sq / 2
  let x_tile := pyint (x / sq)
  if s.ev = some CharacterEvents.moveLeft then
    if isObstacle K (tm y_tile (x_tile - 1)) = false then
      if sq * (45/100) < g ∧ g < sq * (55/100) then
        { s with py := ((y_tile : ℚ) + 1/2) * sq }
      else if g ≤ sq * (45/100) then
        { s with dir := (0, 1), ev := some CharacterEvents.moveDown }
      else
        { s with dir := (0, -1), ev := some CharacterEvents.moveUp }
    else if isObstacle K (tm (y_tile - 1) (x_tile - 1)) = false ∧
        0 ≤ g ∧ g < sq / 4 then
      { s with dir := (0, -1), ev := some CharacterEvents.moveUp }
    else if isObstacle K (tm (y_tile + 1) (x_tile - 1)) = false ∧
        3 * sq / 4 < g ∧ g < sq then
      { s with dir := (0, 1), ev := some CharacterEvents.moveDown }
    else
      { s with dir := (0, 0), ev := some CharacterEvents.stopLeft }
  else s

/-- The obstacle-resolution part of `Character.__move` (lines
258-370): the four direction blocks run in source order; a redirect
set by an earlier block can make a later block act (the chained
conditionals test the mutated `self.__event`). -/
def moveResolve (K : Consts) (tm : Tilemap) (s : MoveOut) : MoveOut :=
  leftBlock K tm (rightBlock K tm (downBlock K tm (upBlock K tm s)))

/-- The full character state of `Character.__init__`.  The animation
objects are not part of the simulation state except for the death
clip's cursor, abstracted by `dieDone`.
Modelled from the spec: the `Animation` module is not part of the
sources; per the spec a stop-at-end clip stays pinned at its final
frame once finished, so the death clip's `done()` query is modelled as
the boolean `dieDone`, which no `Character` operation resets. -/
structure Character where
  speed : ℚ
  velocity : ℤ × ℤ
  placedBombs : ℤ
  totalBombs : ℤ
  fire : ℚ
  event : Option CharacterEvents
  newEvent : Option CharacterEvents
  gotSpecialEvent : Bool
  poseX : ℚ
  poseY : ℚ
  dieDone : Bool
  deriving DecidableEq, Repr

/-- The velocity-to-event derivation block that closes both
`Character.key_up` (lines 147-155) and `Character.key_down` (lines
174-182) verbatim: unless the one-shot special-event flag is up, the
pending event is re-derived from the velocity accumulator with
priority down, up, right, left. -/
def deriveEvent (c : Character) : Character :=
  if c.gotSpecialEvent then c
  else if c.velocity.2 = 1 then
    { c with newEvent := some CharacterEvents.moveDown }
  else if c.velocity.2 = -1 then
    { c with newEvent := some CharacterEvents.moveUp }
  else if c.velocity.1 = 1 then
    { c with newEvent := some CharacterEvents.moveRight }
  else if c.velocity.1 = -1 then
    { c with newEvent := some CharacterEvents.moveLeft }
  else c

/-- `Character.key_up` (lines 126-155): releasing a directional key
adds the opposite unit to the velocity accumulator and pre-sets the
matching STOP event; then the `deriveEvent` block runs.  Everything is
skipped while the pending event is WIN or DIE. -/
def key_up (c : Character) (k : PyKey) : Character :=
  if c.newEvent = some CharacterEvents.win ∨
      c.newEvent = some CharacterEvents.die then c
  else
    deriveEvent <|
      match k with
      | PyKey.left =>
          { c with velocity := (c.velocity.1 + 1, c.velocity.2),
                   newEvent := some CharacterEvents.stopLeft }
      | PyKey.right =>
          { c with velocity := (c.velocity.1 - 1, c.velocity.2),
                   newEvent := some CharacterEvents.stopRight }
      | PyKey.up =>
          { c with velocity := (c.velocity.1, c.velocity.2 + 1),
                   newEvent := some CharacterEvents.stopUp }
      | PyKey.down =>
          { c with velocity := (c.velocity.1, c.velocity.2 - 1),
                   newEvent := some CharacterEvents.stopDown }
      | PyKey.other => c

/-- `Character.key_down` (lines 157-182): pressing a directional key
adds the direction unit to the velocity accumulator (no STOP pre-set),
then the `deriveEvent` block runs, exactly as in `key_up`. -/
def key_down (c : Character) (k : PyKey) : Character :=
  if c.newEvent = some CharacterEvents.win ∨
      c.newEvent = some CharacterEvents.die then c
  else
    deriveEvent <|
      match k with
      | PyKey.left =>
          { c with velocity := (c.velocity.1 - 1, c.velocity.2) }
      | PyKey.right =>
          { c with velocity := (c.velocity.1 + 1, c.velocity.2) }
      | PyKey.up =>
          { c with velocity := (c.velocity.1, c.velocity.2 - 1) }
      | PyKey.down =>
          { c with velocity := (c.velocity.1, c.velocity.2 + 1) }
      | PyKey.other => c

/-- `Character.place_bomb` (lines 184-194): succeeds exactly when the
placed count is strictly below the capacity. -/
def place_bomb (c : Character) : Bool × Character :=
  if c.placedBombs < c.totalBombs then
    (true, { c with placedBombs := c.placedBombs + 1 })
  else
    (false, c)

/-- `Character.bomb_exploded` (lines 196-202): unconditionally
decrements the placed count. -/
def bomb_exploded (c : Character) : Character :=
  { c with placedBombs := c.placedBombs - 1 }

/-- `Character.special_event` (lines 204-212): force-sets the pending
event and raises the one-shot suppression flag. -/
def special_event (c : Character) (e : CharacterEvents) : Character :=
  { c with newEvent := some e, gotSpecialEvent := true }

/-- The tail of `Character.__move` (lines 372-376) wrapped around
`moveResolve`: the resolved direction is scaled by speed, tile size
and the reciprocal frame rate.  Python raises `ZeroDivisionError` on a
zero frame rate, modelled as `none`. -/
def Character.move (K : Consts) (tm : Tilemap) (fps : ℚ) (d : ℤ × ℤ)
    (c : Character) : Option Character :=
  if fps = 0 then none
  else
    let s := moveResolve K tm ⟨c.poseX, c.poseY, d, c.event⟩
    some { c with
            poseX := s.px + (s.dir.1 : ℚ) * c.speed * K.squareSize / fps,
            poseY := s.py + (s.dir.2 : ℚ) * c.speed * K.squareSize / fps,
            event := s.ev }

/-- `Character.update` (lines 37-88): bail out once the death clip is
finished, promote the pending event, drop the one-shot flag, then run
the finite state machine (movement, or one of the powerup effects with
the speed clamp at `MAX_SPEED`). -/
def Character.update (K : Consts) (tm : Tilemap) (fps : ℚ)
    (c : Character) : Option (Bool × Character) :=
  if c.dieDone then some (false, c)
  else
    let c1 : Character :=
      { c with event := c.newEvent, gotSpecialEvent := false }
    match c1.newEvent with
    | some CharacterEvents.moveUp =>
        (Character.move K tm fps (0, -1) c1).map (fun c2 => (true, c2))
    | some CharacterEvents.moveDown =>
        (Character.move K tm fps (0, 1) c1).map (fun c2 => (true, c2))
    | some CharacterEvents.moveRight =>
        (Character.move K tm fps (1, 0) c1).map (fun c2 => (true, c2))
    | some CharacterEvents.moveLeft =>
        (Character.move K tm fps (-1, 0) c1).map (fun c2 => (true, c2))
    | some CharacterEvents.increaseSpeed =>
        let s := c1.speed + K.speedIncrement
        let s := if K.maxSpeed < s then K.maxSpeed else s
        some (true, { c1 with speed := s, newEvent := none })
    | some CharacterEvents.increaseBomb =>
        some (true, { c1 with totalBombs := c1.totalBombs + 1,
                              newEvent := none })
    | some CharacterEvents.increaseFire =>
        some (true, { c1 with fire := c1.fire + K.fireIncrement,
                              newEvent := none })
    | _ => some (true, c1)

/-- Keyboard edge: a key press or a key release. -/
inductive KeyEdge where
  | press (k : PyKey)
  | release (k : PyKey)
  deriving DecidableEq, Repr

/-- Feed one keyboard edge to the character. -/
def applyEdge (c : Character) (e : KeyEdge) : Character :=
  match e with
  | KeyEdge.press k => key_down c k
  | KeyEdge.release k => key_up c k

/-- Feed a sequence of keyboard edges to the character. -/
def applyEdges (c : Character) (es : List KeyEdge) : Character :=
  es.foldl applyEdge c

/-- Calling `place_bomb` `n` times, counting the successes. -/
def placeN : ℕ → Character → ℕ × Character
  | 0, c => (0, c)
  | n + 1, c =>
      let r := place_bomb c
      let p := placeN n r.2
      ((if r.1 then 1 else 0) + p.1, p.2)

/-- Left-right mirror of an event: horizontal moves and stops swap,
everything else is fixed. -/
def mirrorEv : Option CharacterEvents → Option CharacterEvents
  | some CharacterEvents.moveLeft => some CharacterEvents.moveRight
  | some CharacterEvents.moveRight => some CharacterEvents.moveLeft
  | some CharacterEvents.stopLeft => some CharacterEvents.stopRight
  | some CharacterEvents.stopRight => some CharacterEvents.stopLeft
  | e => e

/-- Left-right mirror of a tilemap about the vertical line `x = M*sq`:
column `c` is exchanged with column `2*M - 1 - c`. -/
def mirrorMap (M : ℤ) (tm : Tilemap) : Tilemap :=
  fun r c => tm r (2 * M - 1 - c)

/-- `sM` is the left-right mirror image (about `x = M * sq`) of the
resolver output `s`: mirrored event, negated horizontal direction,
reflected horizontal position, identical vertical position. -/
def mirrors (M : ℤ) (sq : ℚ) (s sM : MoveOut) : Prop :=
  sM.ev = mirrorEv s.ev ∧ sM.dir = (-s.dir.1, s.dir.2) ∧
  sM.px = 2 * (M : ℚ) * sq - s.px ∧ sM.py = s.py

/-- The pending event of `c` agrees with the down-up-right-left
priority over its velocity accumulator. -/
def velocityPriority (c : Character) : Prop :=
  (c.velocity.2 = 1 → c.newEvent = some CharacterEvents.moveDown) ∧
  (c.velocity.2 = -1 → c.newEvent = some CharacterEvents.moveUp) ∧
  (c.velocity.2 ≠ 1 → c.velocity.2 ≠ -1 → c.velocity.1 = 1 →
    c.newEvent = some CharacterEvents.moveRight) ∧
  (c.velocity.2 ≠ 1 → c.velocity.2 ≠ -1 → c.velocity.1 = -1 →
    c.newEvent = some CharacterEvents.moveLeft)

/-- Concrete constant values used by the explicit examples below
(tile size 20 pixels, obstacle codes 1-6, empty tile 0). -/
def constsEx : Consts :=
  { squareSize := 20, maxSpeed := 5, speedIncrement := 1, fireIncrement := 1,
    unitBlock := 1, unitFixedBlock := 2, unitBomb := 3,
    unitPowerupFireHide := 4, unitPowerupVelocityHide := 5,
    unitPowerupBombHide := 6 }

/-- A fully open tilemap. -/
def tmOpen : Tilemap := fun _ _ => 0

/-- A tilemap with a single fixed block at row 2, column 2. -/
def tmWall : Tilemap := fun r c => if r = 2 ∧ c = 2 then 1 else 0

/-- A freshly constructed character (the counters of
`Character.__init__`), standing near the middle of tile (2, 2). -/
def charEx : Character :=
  { speed := 1, velocity := (0, 0), placedBombs := 0, totalBombs := 1,
    fire := 1, event := some CharacterEvents.stopDown,
    newEvent := some CharacterEvents.stopDown, gotSpecialEvent := false,
    poseX := 50, poseY := 50, dieDone := false }

/-! ### Arithmetic facts about the Python `%` and `int` embeddings -/

theorem pymod_nonneg (a b : ℚ) (hb : 0 < b) : 0 ≤ pymod a b := by
  have h1 : ((⌊a / b⌋ : ℚ)) ≤ a / b := Int.floor_le _
  have h2 : b * ((⌊a / b⌋ : ℚ)) ≤ b * (a / b) :=
    mul_le_mul_of_nonneg_left h1 (le_of_lt hb)
  have h3 : b * (a / b) = a := by field_simp
  unfold pymod
  linarith

theorem pymod_lt (a b : ℚ) (hb : 0 < b) : pymod a b < b := by
  have h1 : a / b < (⌊a / b⌋ : ℚ) + 1 := Int.lt_floor_add_one _
  rw [div_lt_iff₀ hb] at h1
  unfold pymod
  nlinarith

theorem pymod_decomp (a b : ℚ) : a = b * (⌊a / b⌋ : ℚ) + pymod a b := by
  unfold pymod; ring

theorem pyint_eq_floor (q : ℚ) (h : 0 ≤ q) : pyint q = ⌊q⌋ := if_pos h

theorem floor_of_decomp (b : ℚ) (T : ℤ) (r : ℚ) (hb : 0 < b)
    (h0 : 0 ≤ r) (hr : r < b) : ⌊(b * (T : ℚ) + r) / b⌋ = T := by
  have hbne : b ≠ 0 := ne_of_gt hb
  have hd : (b * (T : ℚ) + r) / b = (T : ℚ) + r / b := by field_simp; ring
  rw [hd, Int.floor_eq_iff]
  constructor
  · have : 0 ≤ r / b := div_nonneg h0 (le_of_lt hb)
    linarith
  · have : r / b < 1 := (div_lt_one hb).mpr hr
    linarith

theorem pymod_of_decomp (b : ℚ) (T : ℤ) (r : ℚ) (hb : 0 < b)
    (h0 : 0 ≤ r) (hr : r < b) : pymod (b * (T : ℚ) + r) b = r := by
  unfold pymod
  rw [floor_of_decomp b T r hb h0 hr]
  ring

theorem pyint_of_decomp (b : ℚ) (T : ℤ) (r : ℚ) (hb : 0 < b)
    (h0 : 0 ≤ r) (hr : r < b) (hT : 0 ≤ T) :
    pyint ((b * (T : ℚ) + r) / b) = T := by
  have harg : 0 ≤ (b * (T : ℚ) + r) / b := by
    apply div_nonneg _ (le_of_lt hb)
    have : (0 : ℚ) ≤ (T : ℚ) := by exact_mod_cast hT
    nlinarith
  rw [pyint_eq_floor _ harg, floor_of_decomp b T r hb h0 hr]

/-! ### Branch characterizations of the four `__move` blocks -/

theorem upBlock_noop (K : Consts) (tm : Tilemap) (s : MoveOut)
    (h : s.ev ≠ some CharacterEvents.moveUp) : upBlock K tm s = s := by
  simp only [upBlock, if_neg h]

theorem upBlock_snap (K : Consts) (tm : Tilemap) (s : MoveOut)
    (hev : s.ev = some CharacterEvents.moveUp)
    (hopen : isObstacle K (tm (pyint ((s.py + K.squareSize / 2) / K.squareSize) - 1)
      (pyint (s.px / K.squareSize))) = false)
    (hband : K.squareSize * (45/100) < pymod s.px K.squareSize ∧
      pymod s.px K.squareSize < K.squareSize * (55/100)) :
    upBlock K tm s =
      { s with px := ((pyint (s.px / K.squareSize) : ℚ) + 1/2) * K.squareSize } := by
  simp only [upBlock, hev]
  rw [if_pos trivial, if_pos hopen, if_pos hband]

theorem upBlock_center_right (K : Consts) (tm : Tilemap) (s : MoveOut)
    (hev : s.ev = some CharacterEvents.moveUp)
    (hopen : isObstacle K (tm (pyint ((s.py + K.squareSize / 2) / K.squareSize) - 1)
      (pyint (s.px / K.squareSize))) = false)
    (hle : pymod s.px K.squareSize ≤ K.squareSize * (45/100)) :
    upBlock K tm s =
      { s with dir := (1, 0), ev := some CharacterEvents.moveRight } := by
  simp only [upBlock, hev]
  rw [if_pos trivial, if_pos hopen,
    if_neg (fun h => absurd hle (not_le.mpr h.1)), if_pos hle]

theorem upBlock_center_left (K : Consts) (tm : Tilemap) (s : MoveOut)
    (hev : s.ev = some CharacterEvents.moveUp)
    (hopen : isObstacle K (tm (pyint ((s.py + K.squareSize / 2) / K.squareSize) - 1)
      (pyint (s.px / K.squareSize))) = false)
    (hge : ¬(pymod s.px K.squareSize < K.squareSize * (55/100)))
    (hgt : ¬(pymod s.px K.squareSize ≤ K.squareSize * (45/100))) :
    upBlock K tm s =
      { s with dir := (-1, 0), ev := some CharacterEvents.moveLeft } := by
  simp only [upBlock, hev]
  rw [if_pos trivial, if_pos hopen, if_neg (fun h => hge h.2), if_neg hgt]

theorem upBlock_corner_left (K : Consts) (tm : Tilemap) (s : MoveOut)
    (hev : s.ev = some CharacterEvents.moveUp)
    (hblk : isObstacle K (tm (pyint ((s.py + K.squareSize / 2) / K.squareSize) - 1)
      (pyint (s.px / K.squareSize))) = true)
    (hcl : isObstacle K (tm (pyint ((s.py + K.squareSize / 2) / K.squareSize) - 1)
        (pyint (s.px / K.squareSize) - 1)) = false ∧
      0 < pymod s.px K.squareSize ∧ pymod s.px K.squareSize < K.squareSize / 4) :
    upBlock K tm s =
      { s with dir := (-1, 0), ev := some CharacterEvents.moveLeft } := by
  simp only [upBlock, hev]
  rw [if_pos trivial, if_neg (by simp [hblk]), if_pos hcl]

theorem upBlock_corner_right (K : Consts) (tm : Tilemap) (s : MoveOut)
    (hev : s.ev = some CharacterEvents.moveUp)
    (hblk : isObstacle K (tm (pyint ((s.py + K.squareSize / 2) / K.squareSize) - 1)
      (pyint (s.px / K.squareSize))) = true)
    (hncl : ¬(isObstacle K (tm (pyint ((s.py + K.squareSize / 2) / K.squareSize) - 1)
        (pyint (s.px / K.squareSize) - 1)) = false ∧
      0 < pymod s.px K.squareSize ∧ pymod s.px K.squareSize < K.squareSize / 4))
    (hcr : isObstacle K (tm (pyint ((s.py + K.squareSize / 2) / K.squareSize) - 1)
        (pyint (s.px / K.squareSize) + 1)) = false ∧
      3 * K.squareSize / 4 < pymod s.px K.squareSize ∧
      pymod s.px K.squareSize < K.squareSize) :
    upBlock K tm s =
      { s with dir := (1, 0), ev := some CharacterEvents.moveRight } := by
  simp only [upBlock, hev]
  rw [if_pos trivial, if_neg (by simp [hblk]), if_neg hncl, if_pos hcr]

theorem upBlock_stop (K : Consts) (tm : Tilemap) (s : MoveOut)
    (hev : s.ev = some CharacterEvents.moveUp)
    (hblk : isObstacle K (tm (pyint ((s.py + K.squareSize / 2) / K.squareSize) - 1)
      (pyint (s.px / K.squareSize))) = true)
    (hncl : ¬(isObstacle K (tm (pyint ((s.py + K.squareSize / 2) / K.squareSize) - 1)
        (pyint (s.px / K.squareSize) - 1)) = false ∧
      0 < pymod s.px K.squareSize ∧ pymod s.px K.squareSize < K.squareSize / 4))
    (hncr : ¬(isObstacle K (tm (pyint ((s.py + K.squareSize / 2) / K.squareSize) - 1)
        (pyint (s.px / K.squareSize) + 1)) = false ∧
      3 * K.squareSize / 4 < pymod s.px K.squareSize ∧
      pymod s.px K.squareSize < K.squareSize)) :
    upBlock K tm s =
      { s with dir := (0, 0), ev := some CharacterEvents.stopUp } := by
  simp only [upBlock, hev]
  rw [if_pos trivial, if_neg (by simp [hblk]), if_neg hncl, if_neg hncr]

theorem downBlock_noop (K : Consts) (tm : Tilemap) (s : MoveOut)
    (h : s.ev ≠ some CharacterEvents.moveDown) : downBlock K tm s = s := by
  simp only [downBlock, if_neg h]

theorem downBlock_snap (K : Consts) (tm : Tilemap) (s : MoveOut)
    (hev : s.ev = some CharacterEvents.moveDown)
    (hopen : isObstacle K (tm (pyint ((s.py - K.squareSize / 2 - 1) / K.squareSize) + 1)
      (pyint (s.px / K.squareSize))) = false)
    (hband : K.squareSize * (45/100) < pymod s.px K.squareSize ∧
      pymod s.px K.squareSize < K.squareSize * (55/100)) :
    downBlock K tm s =
      { s with px := ((pyint (s.px / K.squareSize) : ℚ) + 1/2) * K.squareSize } := by
  simp only [downBlock, hev]
  rw [if_pos trivial, if_pos hopen, if_pos hband]

theorem downBlock_center_right (K : Consts) (tm : Tilemap) (s : MoveOut)
    (hev : s.ev = some CharacterEvents.moveDown)
    (hopen : isObstacle K (tm (pyint ((s.py - K.squareSize / 2 - 1) / K.squareSize) + 1)
      (pyint (s.px / K.squareSize))) = false)
    (hle : pymod s.px K.squareSize ≤ K.squareSize * (45/100)) :
    downBlock K tm s =
      { s with dir := (1, 0), ev := some CharacterEvents.moveRight } := by
  simp only [downBlock, hev]
  rw [if_pos trivial, if_pos hopen,
    if_neg (fun h => absurd hle (not_le.mpr h.1)), if_pos hle]

theorem downBlock_center_left (K : Consts) (tm : Tilemap) (s : MoveOut)
    (hev : s.ev = some CharacterEvents.moveDown)
    (hopen : isObstacle K (tm (pyint ((s.py - K.squareSize / 2 - 1) / K.squareSize) + 1)
      (pyint (s.px / K.squareSize))) = false)
    (hge : ¬(pymod s.px K.squareSize < K.squareSize * (55/100)))
    (hgt : ¬(pymod s.px K.squareSize ≤ K.squareSize * (45/100))) :
    downBlock K tm s =
      { s with dir := (-1, 0), ev := some CharacterEvents.moveLeft } := by
  simp only [downBlock, hev]
  rw [if_pos trivial, if_pos hopen, if_neg (fun h => hge h.2), if_neg hgt]

theorem downBlock_corner_left (K : Consts) (tm : Tilemap) (s : MoveOut)
    (hev : s.ev = some CharacterEvents.moveDown)
    (hblk : isObstacle K (tm (pyint ((s.py - K.squareSize / 2 - 1) / K.squareSize) + 1)
      (pyint (s.px / K.squareSize))) = true)
    (hcl : isObstacle K (tm (pyint ((s.py - K.squareSize / 2 - 1) / K.squareSize) + 1)
        (pyint (s.px / K.squareSize) - 1)) = false ∧
      0 ≤ pymod s.px K.squareSize ∧ pymod s.px K.squareSize < K.squareSize / 4) :
    downBlock K tm s =
      { s with dir := (-1, 0), ev := some CharacterEvents.moveLeft } := by
  simp only [downBlock, hev]
  rw [if_pos trivial, if_neg (by simp [hblk]), if_pos hcl]

theorem downBlock_corner_right (K : Consts) (tm : Tilemap) (s : MoveOut)
    (hev : s.ev = some CharacterEvents.moveDown)
    (hblk : isObstacle K (tm (pyint ((s.py - K.squareSize / 2 - 1) / K.squareSize) + 1)
      (pyint (s.px / K.squareSize))) = true)
    (hncl : ¬(isObstacle K (tm (pyint ((s.py - K.squareSize / 2 - 1) / K.squareSize) + 1)
        (pyint (s.px / K.squareSize) - 1)) = false ∧
      0 ≤ pymod s.px K.squareSize ∧ pymod s.px K.squareSize < K.squareSize / 4))
    (hcr : isObstacle K (tm (pyint ((s.py - K.squareSize / 2 - 1) / K.squareSize) + 1)
        (pyint (s.px / K.squareSize) + 1)) = false ∧
      3 * K.squareSize / 4 < pymod s.px K.squareSize ∧
      pymod s.px K.squareSize < K.squareSize) :
    downBlock K tm s =
      { s with dir := (1, 0), ev := some CharacterEvents.moveRight } := by
  simp only [downBlock, hev]
  rw [if_pos trivial, if_neg (by simp [hblk]), if_neg hncl, if_pos hcr]

theorem downBlock_stop (K : Consts) (tm : Tilemap) (s : MoveOut)
    (hev : s.ev = some CharacterEvents.moveDown)
    (hblk : isObstacle K (tm (pyint ((s.py - K.squareSize / 2 - 1) / K.squareSize) + 1)
      (pyint (s.px / K.squareSize))) = true)
    (hncl : ¬(isObstacle K (tm (pyint ((s.py - K.squareSize / 2 - 1) / K.squareSize) + 1)
        (pyint (s.px / K.squareSize) - 1)) = false ∧
      0 ≤ pymod s.px K.squareSize ∧ pymod s.px K.squareSize < K.squareSize / 4))
    (hncr : ¬(isObstacle K (tm (pyint ((s.py - K.squareSize / 2 - 1) / K.squareSize) + 1)
        (pyint (s.px / K.squareSize) + 1)) = false ∧
      3 * K.squareSize / 4 < pymod s.px K.squareSize ∧
      pymod s.px K.squareSize < K.squareSize)) :
    downBlock K tm s =
      { s with dir := (0, 0), ev := some CharacterEvents.stopDown } := by
  simp only [downBlock, hev]
  rw [if_pos trivial, if_neg (by simp [hblk]), if_neg hncl, if_neg hncr]

theorem rightBlock_noop (K : Consts) (tm : Tilemap) (s : MoveOut)
    (h : s.ev ≠ some CharacterEvents.moveRight) : rightBlock K tm s = s := by
  simp only [rightBlock, if_neg h]

theorem rightBlock_snap (K : Consts) (tm : Tilemap) (s : MoveOut)
    (hev : s.ev = some CharacterEvents.moveRight)
    (hopen : isObstacle K (tm (pyint (s.py / K.squareSize))
      (pyint ((s.px - K.squareSize / 2 - 1) / K.squareSize) + 1)) = false)
    (hband : K.squareSize * (45/100) < pymod s.py K.squareSize ∧
      pymod s.py K.squareSize < K.squareSize * (55/100)) :
    rightBlock K tm s =
      { s with py := ((pyint (s.py / K.squareSize) : ℚ) + 1/2) * K.squareSize } := by
  simp only [rightBlock, hev]
  rw [if_pos trivial, if_pos hopen, if_pos hband]

theorem rightBlock_stop (K : Consts) (tm : Tilemap) (s : MoveOut)
    (hev : s.ev = some CharacterEvents.moveRight)
    (hblk : isObstacle K (tm (pyint (s.py / K.squareSize))
      (pyint ((s.px - K.squareSize / 2 - 1) / K.squareSize) + 1)) = true)
    (hncl : ¬(isObstacle K (tm (pyint (s.py / K.squareSize) - 1)
        (pyint ((s.px - K.squareSize / 2 - 1) / K.squareSize) + 1)) = false ∧
      0 ≤ pymod s.py K.squareSize ∧ pymod s.py K.squareSize < K.squareSize / 4))
    (hncr : ¬(isObstacle K (tm (pyint (s.py / K.squareSize) + 1)
        (pyint ((s.px - K.squareSize / 2 - 1) / K.squareSize) + 1)) = false ∧
      3 * K.squareSize / 4 < pymod s.py K.squareSize ∧
      pymod s.py K.squareSize < K.squareSize)) :
    rightBlock K tm s =
      { s with dir := (0, 0), ev := some CharacterEvents.stopRight } := by
  simp only [rightBlock, hev]
  rw [if_pos trivial, if_neg (by simp [hblk]), if_neg hncl, if_neg hncr]

theorem leftBlock_noop (K : Consts) (tm : Tilemap) (s : MoveOut)
    (h : s.ev ≠ some CharacterEvents.moveLeft) : leftBlock K tm s = s := by
  simp only [leftBlock, if_neg h]

theorem leftBlock_snap (K : Consts) (tm : Tilemap) (s : MoveOut)
    (hev : s.ev = some CharacterEvents.moveLeft)
    (hopen : isObstacle K (tm (pyint (s.py / K.squareSize))
      (pyint ((s.px + K.squareSize / 2) / K.squareSize) - 1)) = false)
    (hband : K.squareSize * (45/100) < pymod s.py K.squareSize ∧
      pymod s.py K.squareSize < K.squareSize * (55/100)) :
    leftBlock K tm s =
      { s with py := ((pyint (s.py / K.squareSize) : ℚ) + 1/2) * K.squareSize } := by
  simp only [leftBlock, hev]
  rw [if_pos trivial, if_pos hopen, if_pos hband]

theorem leftBlock_stop (K : Consts) (tm : Tilemap) (s : MoveOut)
    (hev : s.ev = some CharacterEvents.moveLeft)
    (hblk : isObstacle K (tm (pyint (s.py / K.squareSize))
      (pyint ((s.px + K.squareSize / 2) / K.squareSize) - 1)) = true)
    (hncl : ¬(isObstacle K (tm (pyint (s.py / K.squareSize) - 1)
        (pyint ((s.px + K.squareSize / 2) / K.squareSize) - 1)) = false ∧
      0 ≤ pymod s.py K.squareSize ∧ pymod s.py K.squareSize < K.squareSize / 4))
    (hncr : ¬(isObstacle K (tm (pyint (s.py / K.squareSize) + 1)
        (pyint ((s.px + K.squareSize / 2) / K.squareSize) - 1)) = false ∧
      3 * K.squareSize / 4 < pymod s.py K.squareSize ∧
      pymod s.py K.squareSize < K.squareSize)) :
    leftBlock K tm s =
      { s with dir := (0, 0), ev := some CharacterEvents.stopLeft } := by
  simp only [leftBlock, hev]
  rw [if_pos trivial, if_neg (by simp [hblk]), if_neg hncl, if_neg hncr]

/-! ### State-machine lemmas -/

theorem deriveEvent_speed (c : Character) : (deriveEvent c).speed = c.speed := by
  unfold deriveEvent; split_ifs <;> rfl

theorem velocityPriority_deriveEvent (c : Character)
    (h : c.gotSpecialEvent = false) : velocityPriority (deriveEvent c) := by
  unfold deriveEvent velocityPriority
  rw [if_neg (by simp [h])]
  split_ifs with h1 h2 h3 h4 <;>
    refine ⟨?_, ?_, ?_, ?_⟩ <;> simp_all

theorem placeN_all_succeed (n : ℕ) :
    ∀ c : Character, c.placedBombs + n ≤ c.totalBombs →
      (placeN n c).1 = n ∧
      (placeN n c).2 = { c with placedBombs := c.placedBombs + n } := by
  induction n with
  | zero =>
      intro c _
      refine ⟨rfl, ?_⟩
      cases c
      simp [placeN]
  | succ n ih =>
      intro c h
      have hlt : c.placedBombs < c.totalBombs := by
        push_cast at h
        omega
      have step : place_bomb c =
          (true, { c with placedBombs := c.placedBombs + 1 }) := by
        simp [place_bomb, if_pos hlt]
      have h2 : ({ c with placedBombs := c.placedBombs + 1 } : Character).placedBombs
          + (n : ℤ) ≤
          ({ c with placedBombs := c.placedBombs + 1 } : Character).totalBombs := by
        push_cast at h ⊢
        omega
      obtain ⟨hc, hs⟩ := ih _ h2
      constructor
      · simp [placeN, step, hc]
        omega
      · simp only [placeN, step, hs]
        cases c
        simp
        ring

theorem update_speed_cases (K : Consts) (tm : Tilemap) (fps : ℚ)
    (c : Character) (b : Bool) (c2 : Character)
    (h : Character.update K tm fps c = some (b, c2)) :
    c2.speed = c.speed ∨
      (c.newEvent = some CharacterEvents.increaseSpeed ∧
        c2.speed = (if K.maxSpeed < c.speed + K.speedIncrement then K.maxSpeed
          else c.speed + K.speedIncrement)) := by
  by_cases hd : c.dieDone
  · left
    simp [Character.update, hd] at h
    rw [← h.2]
  · cases hev : c.newEvent with
    | none =>
        left
        simp [Character.update, hd, hev] at h
        rw [← h.2]
    | some e =>
        by_cases hf : fps = 0 <;>
          cases e <;>
            simp [Character.update, hd, hev, Character.move, hf] at h <;>
              first
              | (right; exact ⟨rfl, by rw [← h.2]⟩)
              | (left; rw [← h.2])

theorem update_clears_flag (K : Consts) (tm : Tilemap) (fps : ℚ)
    (c : Character) (b : Bool) (c2 : Character) (hd : c.dieDone = false)
    (h : Character.update K tm fps c = some (b, c2)) :
    c2.gotSpecialEvent = false := by
  cases hev : c.newEvent with
  | none =>
      simp [Character.update, hd, hev] at h
      rw [← h.2]
  | some e =>
      by_cases hf : fps = 0 <;>
        cases e <;>
          simp [Character.update, hd, hev, Character.move, hf] at h <;>
            rw [← h.2]

/-! ### The claims -/

/-- C3 (amended): after `special_event(e)`, a `key_down` edge never
overwrites the pending event; a `key_up` edge leaves the state
untouched when `e` is Win or Die; and the next completed `update`
clears the one-shot suppression flag, reverting to velocity-driven
inference.  (As stated, the claim is false: a directional `key_up`
while a powerup event is pending overwrites it with the matching Stop
event — see the counterexample.) -/
theorem claim_C3_amended (K : Consts) (tm : Tilemap) (fps : ℚ)
    (c : Character) (e : CharacterEvents) :
    (∀ k, (key_down (special_event c e) k).newEvent = some e)
    ∧ ((e = CharacterEvents.win ∨ e = CharacterEvents.die) →
      ∀ k, key_up (special_event c e) k = special_event c e)
    ∧ (c.dieDone = false → ∀ b c2,
      Character.update K tm fps (special_event c e) = some (b, c2) →
        c2.gotSpecialEvent = false) := by
  refine ⟨?_, ?_, ?_⟩
  · intro k
    unfold key_down
    split_ifs with hg
    · rfl
    · cases k <;> simp [deriveEvent, special_event]
  · intro he k
    unfold key_up
    rw [if_pos]
    rcases he with he | he <;> subst he <;> simp [special_event]
  · intro hd b c2 h
    exact update_clears_flag K tm fps (special_event c e) b c2 hd h

/-- C3, counterexample: with a powerup special event pending
(INCREASE_SPEED set through `special_event`), releasing the left arrow
key overwrites the pending event with STOP_LEFT before the one-shot
flag is consulted, so the special event is lost — the claim's
"directional key-down/key-up edges do not overwrite the pending
event" fails on `key_up`. -/
theorem claim_C3_counterexample :
    (key_up (special_event charEx CharacterEvents.increaseSpeed)
      PyKey.left).newEvent = some CharacterEvents.stopLeft
    ∧ some CharacterEvents.stopLeft ≠ some CharacterEvents.increaseSpeed := by
  constructor
  · simp [key_up, special_event, deriveEvent, charEx]
  · decide

/-- C4: once the death animation reports finished, `update` returns
false and leaves the whole character state (in particular its
position) unchanged, so every subsequent call behaves identically. -/
theorem claim_C4 (K : Consts) (tm : Tilemap) (fps : ℚ) (c : Character)
    (h : c.dieDone = true) :
    Character.update K tm fps c = some (false, c) := by
  simp [Character.update, h]

/-- C5: `place_bomb` succeeds and increments the placed count exactly
when the count is strictly below capacity, fails silently otherwise;
placing then letting one bomb explode restores the count; from zero,
`place_bomb` succeeds exactly `capacity` times and the next call
fails. -/
theorem claim_C5 (c : Character) :
    (c.placedBombs < c.totalBombs →
      place_bomb c = (true, { c with placedBombs := c.placedBombs + 1 }))
    ∧ (c.totalBombs ≤ c.placedBombs → place_bomb c = (false, c))
    ∧ (c.placedBombs < c.totalBombs →
      (bomb_exploded (place_bomb c).2).placedBombs = c.placedBombs)
    ∧ (c.placedBombs = 0 → 0 ≤ c.totalBombs →
      (placeN c.totalBombs.toNat c).1 = c.totalBombs.toNat
      ∧ (place_bomb (placeN c.totalBombs.toNat c).2).1 = false) := by
  refine ⟨?_, ?_, ?_, ?_⟩
  · intro h; simp [place_bomb, if_pos h]
  · intro h; simp [place_bomb, if_neg (not_lt.mpr h)]
  · intro h; simp [place_bomb, if_pos h, bomb_exploded]
  · intro h0 hT
    have hcast : (c.totalBombs.toNat : ℤ) = c.totalBombs := Int.toNat_of_nonneg hT
    have hle : c.placedBombs + (c.totalBombs.toNat : ℤ) ≤ c.totalBombs := by
      rw [h0, hcast]; omega
    obtain ⟨hc, hs⟩ := placeN_all_succeed c.totalBombs.toNat c hle
    refine ⟨hc, ?_⟩
    rw [hs]
    simp [place_bomb, h0, hcast]

/-- C6: while the pending event is Win or Die, `key_up` and `key_down`
leave the character completely unchanged, for every key and hence for
every sequence of keyboard edges. -/
theorem claim_C6 (c : Character)
    (h : c.newEvent = some CharacterEvents.win ∨
      c.newEvent = some CharacterEvents.die) :
    (∀ k, key_up c k = c) ∧ (∀ k, key_down c k = c) ∧
    (∀ es : List KeyEdge, applyEdges c es = c) := by
  have hu : ∀ k, key_up c k = c := fun k => by simp only [key_up, if_pos h]
  have hd : ∀ k, key_down c k = c := fun k => by simp only [key_down, if_pos h]
  refine ⟨hu, hd, ?_⟩
  intro es
  induction es with
  | nil => rfl
  | cons e es ih =>
      have he : applyEdge c e = c := by
        cases e with
        | press k => exact hd k
        | release k => exact hu k
      simpa [applyEdges, he] using ih

/-- C7: after any key edge taken outside the Win/Die lock and with no
pending special event, the derived pending event follows the priority
order down, up, right, left over the velocity accumulator, regardless
of the other axis. -/
theorem claim_C7 (c : Character) (k : PyKey) (hflag : c.gotSpecialEvent = false)
    (hw : c.newEvent ≠ some CharacterEvents.win)
    (hd : c.newEvent ≠ some CharacterEvents.die) :
    velocityPriority (key_down c k) ∧ velocityPriority (key_up c k) := by
  have hng : ¬(c.newEvent = some CharacterEvents.win ∨
      c.newEvent = some CharacterEvents.die) := by tauto
  constructor
  · unfold key_down
    rw [if_neg hng]
    apply velocityPriority_deriveEvent
    cases k <;> simp [hflag]
  · unfold key_up
    rw [if_neg hng]
    apply velocityPriority_deriveEvent
    cases k <;> simp [hflag]

/-- C8: the speed never exceeds `MAX_SPEED`: an `update` that applies
INCREASE_SPEED clamps the result to `MAX_SPEED` unconditionally, every
`update` preserves the bound, and all other character operations leave
the speed untouched. -/
theorem claim_C8 (K : Consts) (tm : Tilemap) (fps : ℚ) (c : Character) :
    (∀ b c2, Character.update K tm fps c = some (b, c2) →
      c.speed ≤ K.maxSpeed → c2.speed ≤ K.maxSpeed)
    ∧ (c.newEvent = some CharacterEvents.increaseSpeed → c.dieDone = false →
      ∀ b c2, Character.update K tm fps c = some (b, c2) →
        c2.speed ≤ K.maxSpeed)
    ∧ (∀ k, (key_down c k).speed = c.speed)
    ∧ (∀ k, (key_up c k).speed = c.speed)
    ∧ (place_bomb c).2.speed = c.speed
    ∧ (bomb_exploded c).speed = c.speed
    ∧ (∀ e, (special_event c e).speed = c.speed) := by
  refine ⟨?_, ?_, ?_, ?_, ?_, ?_, ?_⟩
  · intro b c2 h hle
    rcases update_speed_cases K tm fps c b c2 h with h1 | ⟨_, h2⟩
    · rw [h1]; exact hle
    · rw [h2]; split_ifs with hc
      · exact le_refl _
      · exact le_of_not_lt hc
  · intro hev hdie b c2 h
    simp [Character.update, hdie, hev] at h
    rw [← h.2]
    simp only
    split_ifs with hc
    · exact le_refl _
    · exact le_of_not_lt hc
  · intro k
    unfold key_down
    split_ifs
    · rfl
    · rw [deriveEvent_speed]; cases k <;> rfl
  · intro k
    unfold key_up
    split_ifs
    · rfl
    · rw [deriveEvent_speed]; cases k <;> rfl
  · unfold place_bomb; split_ifs <;> rfl
  · rfl
  · intro e; rfl

/-- C10: a directional `update` tick divides the position delta by
the instantaneous frame rate with no zero guard: with a nonzero frame
rate `update` is total (always returns a value), while a zero frame
rate on a pending directional move reaches the division and the tick
is undefined (`none`, Python's `ZeroDivisionError`). -/
theorem claim_C10 (K : Consts) (tm : Tilemap) (fps : ℚ) (c : Character) :
    (fps ≠ 0 → (Character.update K tm fps c).isSome = true)
    ∧ (fps = 0 → c.dieDone = false →
      (c.newEvent = some CharacterEvents.moveUp ∨
       c.newEvent = some CharacterEvents.moveDown ∨
       c.newEvent = some CharacterEvents.moveRight ∨
       c.newEvent = some CharacterEvents.moveLeft) →
      Character.update K tm fps c = none) := by
  constructor
  · intro hf
    by_cases hd : c.dieDone
    · simp [Character.update, hd]
    · cases hev : c.newEvent with
      | none => simp [Character.update, hd, hev]
      | some e =>
          cases e <;> simp [Character.update, hd, hev, Character.move, hf]
  · intro hf hd hmv
    rcases hmv with h | h | h | h <;>
      simp [Character.update, hd, h, Character.move, hf]

/-- C1: in the obstacle resolver, for each of the four requested
directions: when the tile straight ahead is unobstructed and the
cross-axis sub-tile offset lies strictly between 45% and 55% of the
tile size, the cross-axis coordinate is snapped exactly to the tile
centerline and the move proceeds with its event and direction intact;
when the tile straight ahead is obstructed and the offset lies in
(25%,45%] or [55%,75%), the result is the Stop event of the requested
direction with a zero direction vector — no redirect occurs. -/
theorem claim_C1 (K : Consts) (tm : Tilemap) (px py : ℚ)
    (hsq : 0 < K.squareSize) :
    ((isObstacle K (tm (pyint ((py + K.squareSize / 2) / K.squareSize) - 1)
        (pyint (px / K.squareSize))) = false →
      K.squareSize * (45/100) < pymod px K.squareSize →
      pymod px K.squareSize < K.squareSize * (55/100) →
      moveResolve K tm ⟨px, py, (0, -1), some CharacterEvents.moveUp⟩ =
        ⟨((pyint (px / K.squareSize) : ℚ) + 1/2) * K.squareSize, py,
          (0, -1), some CharacterEvents.moveUp⟩)
    ∧ (isObstacle K (tm (pyint ((py + K.squareSize / 2) / K.squareSize) - 1)
        (pyint (px / K.squareSize))) = true →
      ((K.squareSize / 4 < pymod px K.squareSize ∧
        pymod px K.squareSize ≤ K.squareSize * (45/100)) ∨
       (K.squareSize * (55/100) ≤ pymod px K.squareSize ∧
        pymod px K.squareSize < 3 * K.squareSize / 4)) →
      moveResolve K tm ⟨px, py, (0, -1), some CharacterEvents.moveUp⟩ =
        ⟨px, py, (0, 0), some CharacterEvents.stopUp⟩))
    ∧ ((isObstacle K (tm (pyint ((py - K.squareSize / 2 - 1) / K.squareSize) + 1)
        (pyint (px / K.squareSize))) = false →
      K.squareSize * (45/100) < pymod px K.squareSize →
      pymod px K.squareSize < K.squareSize * (55/100) →
      moveResolve K tm ⟨px, py, (0, 1), some CharacterEvents.moveDown⟩ =
        ⟨((pyint (px / K.squareSize) : ℚ) + 1/2) * K.squareSize, py,
          (0, 1), some CharacterEvents.moveDown⟩)
    ∧ (isObstacle K (tm (pyint ((py - K.squareSize / 2 - 1) / K.squareSize) + 1)
        (pyint (px / K.squareSize))) = true →
      ((K.squareSize / 4 < pymod px K.squareSize ∧
        pymod px K.squareSize ≤ K.squareSize * (45/100)) ∨
       (K.squareSize * (55/100) ≤ pymod px K.squareSize ∧
        pymod px K.squareSize < 3 * K.squareSize / 4)) →
      moveResolve K tm ⟨px, py, (0, 1), some CharacterEvents.moveDown⟩ =
        ⟨px, py, (0, 0), some CharacterEvents.stopDown⟩))
    ∧ ((isObstacle K (tm (pyint (py / K.squareSize))
        (pyint ((px - K.squareSize / 2 - 1) / K.squareSize) + 1)) = false →
      K.squareSize * (45/100) < pymod py K.squareSize →
      pymod py K.squareSize < K.squareSize * (55/100) →
      moveResolve K tm ⟨px, py, (1, 0), some CharacterEvents.moveRight⟩ =
        ⟨px, ((pyint (py / K.squareSize) : ℚ) + 1/2) * K.squareSize,
          (1, 0), some CharacterEvents.moveRight⟩)
    ∧ (isObstacle K (tm (pyint (py / K.squareSize))
        (pyint ((px - K.squareSize / 2 - 1) / K.squareSize) + 1)) = true →
      ((K.squareSize / 4 < pymod py K.squareSize ∧
        pymod py K.squareSize ≤ K.squareSize * (45/100)) ∨
       (K.squareSize * (55/100) ≤ pymod py K.squareSize ∧
        pymod py K.squareSize < 3 * K.squareSize / 4)) →
      moveResolve K tm ⟨px, py, (1, 0), some CharacterEvents.moveRight⟩ =
        ⟨px, py, (0, 0), some CharacterEvents.stopRight⟩))
    ∧ ((isObstacle K (tm (pyint (py / K.squareSize))
        (pyint ((px + K.squareSize / 2) / K.squareSize) - 1)) = false →
      K.squareSize * (45/100) < pymod py K.squareSize →
      pymod py K.squareSize < K.squareSize * (55/100) →
      moveResolve K tm ⟨px, py, (-1, 0), some CharacterEvents.moveLeft⟩ =
        ⟨px, ((pyint (py / K.squareSize) : ℚ) + 1/2) * K.squareSize,
          (-1, 0), some CharacterEvents.moveLeft⟩)
    ∧ (isObstacle K (tm (pyint (py / K.squareSize))
        (pyint ((px + K.squareSize / 2) / K.squareSize) - 1)) = true →
      ((K.squareSize / 4 < pymod py K.squareSize ∧
        pymod py K.squareSize ≤ K.squareSize * (45/100)) ∨
       (K.squareSize * (55/100) ≤ pymod py K.squareSize ∧
        pymod py K.squareSize < 3 * K.squareSize / 4)) →
      moveResolve K tm ⟨px, py, (-1, 0), some CharacterEvents.moveLeft⟩ =
        ⟨px, py, (0, 0), some CharacterEvents.stopLeft⟩)) := by
  refine ⟨⟨?_, ?_⟩, ⟨?_, ?_⟩, ⟨?_, ?_⟩, ⟨?_, ?_⟩⟩
  · intro hopen h1 h2
    unfold moveResolve
    rw [upBlock_snap K tm ⟨px, py, (0, -1), some CharacterEvents.moveUp⟩ rfl hopen ⟨h1, h2⟩]
    rw [downBlock_noop _ _ _ (by simp), rightBlock_noop _ _ _ (by simp),
      leftBlock_noop _ _ _ (by simp)]
  · intro hblk hband
    have hm4 : ¬(pymod px K.squareSize < K.squareSize / 4) := by
      rcases hband with ⟨hb1, _⟩ | ⟨hb1, _⟩ <;> intro hcon <;> linarith
    have hm34 : ¬(3 * K.squareSize / 4 < pymod px K.squareSize) := by
      rcases hband with ⟨_, hb2⟩ | ⟨_, hb2⟩ <;> intro hcon <;> linarith
    unfold moveResolve
    rw [upBlock_stop K tm ⟨px, py, (0, -1), some CharacterEvents.moveUp⟩ rfl hblk
      (fun h => hm4 h.2.2) (fun h => hm34 h.2.1)]
    rw [downBlock_noop _ _ _ (by simp), rightBlock_noop _ _ _ (by simp),
      leftBlock_noop _ _ _ (by simp)]
  · intro hopen h1 h2
    unfold moveResolve
    rw [upBlock_noop _ _ _ (by simp)]
    rw [downBlock_snap K tm ⟨px, py, (0, 1), some CharacterEvents.moveDown⟩ rfl hopen ⟨h1, h2⟩]
    rw [rightBlock_noop _ _ _ (by simp), leftBlock_noop _ _ _ (by simp)]
  · intro hblk hband
    have hm4 : ¬(pymod px K.squareSize < K.squareSize / 4) := by
      rcases hband with ⟨hb1, _⟩ | ⟨hb1, _⟩ <;> intro hcon <;> linarith
    have hm34 : ¬(3 * K.squareSize / 4 < pymod px K.squareSize) := by
      rcases hband with ⟨_, hb2⟩ | ⟨_, hb2⟩ <;> intro hcon <;> linarith
    unfold moveResolve
    rw [upBlock_noop _ _ _ (by simp)]
    rw [downBlock_stop K tm ⟨px, py, (0, 1), some CharacterEvents.moveDown⟩ rfl hblk
      (fun h => hm4 h.2.2) (fun h => hm34 h.2.1)]
    rw [rightBlock_noop _ _ _ (by simp), leftBlock_noop _ _ _ (by simp)]
  · intro hopen h1 h2
    unfold moveResolve
    rw [upBlock_noop _ _ _ (by simp), downBlock_noop _ _ _ (by simp)]
    rw [rightBlock_snap K tm ⟨px, py, (1, 0), some CharacterEvents.moveRight⟩ rfl hopen ⟨h1, h2⟩]
    rw [leftBlock_noop _ _ _ (by simp)]
  · intro hblk hband
    have hm4 : ¬(pymod py K.squareSize < K.squareSize / 4) := by
      rcases hband with ⟨hb1, _⟩ | ⟨hb1, _⟩ <;> intro hcon <;> linarith
    have hm34 : ¬(3 * K.squareSize / 4 < pymod py K.squareSize) := by
      rcases hband with ⟨_, hb2⟩ | ⟨_, hb2⟩ <;> intro hcon <;> linarith
    unfold moveResolve
    rw [upBlock_noop _ _ _ (by simp), downBlock_noop _ _ _ (by simp)]
    rw [rightBlock_stop K tm ⟨px, py, (1, 0), some CharacterEvents.moveRight⟩ rfl hblk
      (fun h => hm4 h.2.2) (fun h => hm34 h.2.1)]
    rw [leftBlock_noop _ _ _ (by simp)]
  · intro hopen h1 h2
    unfold moveResolve
    rw [upBlock_noop _ _ _ (by simp), downBlock_noop _ _ _ (by simp),
      rightBlock_noop _ _ _ (by simp)]
    rw [leftBlock_snap K tm ⟨px, py, (-1, 0), some CharacterEvents.moveLeft⟩ rfl hopen ⟨h1, h2⟩]
  · intro hblk hband
    have hm4 : ¬(pymod py K.squareSize < K.squareSize / 4) := by
      rcases hband with ⟨hb1, _⟩ | ⟨hb1, _⟩ <;> intro hcon <;> linarith
    have hm34 : ¬(3 * K.squareSize / 4 < pymod py K.squareSize) := by
      rcases hband with ⟨_, hb2⟩ | ⟨_, hb2⟩ <;> intro hcon <;> linarith
    unfold moveResolve
    rw [upBlock_noop _ _ _ (by simp), downBlock_noop _ _ _ (by simp),
      rightBlock_noop _ _ _ (by simp)]
    rw [leftBlock_stop K tm ⟨px, py, (-1, 0), some CharacterEvents.moveLeft⟩ rfl hblk
      (fun h => hm4 h.2.2) (fun h => hm34 h.2.1)]

/-- C9: with the character horizontally at the exact tile center
(offset `sq/2`), a pending MoveUp and the sampled tile straight above
unobstructed, one `update` tick moves the character straight up by
exactly `speed * tileSize / frameRate` pixels and leaves the x
coordinate unchanged. -/
theorem claim_C9 (K : Consts) (tm : Tilemap) (fps : ℚ) (c : Character)
    (hsq : 0 < K.squareSize) (hfps : fps ≠ 0) (hdie : c.dieDone = false)
    (hev : c.newEvent = some CharacterEvents.moveUp) (hx0 : 0 ≤ c.poseX)
    (hmid : pymod c.poseX K.squareSize = K.squareSize / 2)
    (hopen : isObstacle K
      (tm (pyint ((c.poseY + K.squareSize / 2) / K.squareSize) - 1)
        (pyint (c.poseX / K.squareSize))) = false) :
    ∃ c2, Character.update K tm fps c = some (true, c2)
      ∧ c2.poseX = c.poseX
      ∧ c2.poseY = c.poseY - c.speed * K.squareSize / fps := by
  have hband : K.squareSize * (45/100) < pymod c.poseX K.squareSize ∧
      pymod c.poseX K.squareSize < K.squareSize * (55/100) := by
    rw [hmid]; constructor <;> linarith
  have hfl : pyint (c.poseX / K.squareSize) = ⌊c.poseX / K.squareSize⌋ :=
    pyint_eq_floor _ (div_nonneg hx0 (le_of_lt hsq))
  have hpx : ((pyint (c.poseX / K.squareSize) : ℚ) + 1/2) * K.squareSize
      = c.poseX := by
    have hdec := pymod_decomp c.poseX K.squareSize
    rw [hmid] at hdec
    rw [hfl]
    linarith [hdec]
  have hmove : moveResolve K tm
      ⟨c.poseX, c.poseY, (0, -1), some CharacterEvents.moveUp⟩ =
      ⟨c.poseX, c.poseY, (0, -1), some CharacterEvents.moveUp⟩ := by
    rw [moveResolve,
      upBlock_snap K tm ⟨c.poseX, c.poseY, (0, -1), some CharacterEvents.moveUp⟩
        rfl hopen hband]
    rw [downBlock_noop _ _ _ (by simp), rightBlock_noop _ _ _ (by simp),
      leftBlock_noop _ _ _ (by simp), hpx]
  have hC : Character.update K tm fps c = some (true,
      { c with
          event := some CharacterEvents.moveUp,
          gotSpecialEvent := false,
          poseX := c.poseX + ((0 : ℤ) : ℚ) * c.speed * K.squareSize / fps,
          poseY := c.poseY + ((-1 : ℤ) : ℚ) * c.speed * K.squareSize / fps }) := by
    simp [Character.update, hdie, hev, Character.move, hfps, hmove]
  refine ⟨_, hC, by simp, by push_cast; ring⟩

theorem mirrorMap_self (M : ℤ) (tm : Tilemap) (r c : ℤ) :
    mirrorMap M tm r (2 * M - 1 - c) = tm r c := by
  unfold mirrorMap
  congr 1
  omega

theorem mirror_tile_arith (sq px : ℚ) (M : ℤ) (hsq : 0 < sq)
    (hx0 : 0 ≤ px) (hx1 : px ≤ 2 * (M : ℚ) * sq) (hf : pymod px sq ≠ 0) :
    pyint ((2 * (M : ℚ) * sq - px) / sq) = 2 * M - 1 - ⌊px / sq⌋ ∧
    pymod (2 * (M : ℚ) * sq - px) sq = sq - pymod px sq := by
  have hm0 : 0 ≤ pymod px sq := pymod_nonneg px sq hsq
  have hmlt : pymod px sq < sq := pymod_lt px sq hsq
  have hmpos : 0 < pymod px sq := lt_of_le_of_ne hm0 (Ne.symm hf)
  have hdec : px = sq * ((⌊px / sq⌋ : ℤ) : ℚ) + pymod px sq := pymod_decomp px sq
  have hXdec : 2 * (M : ℚ) * sq - px =
      sq * ((2 * M - 1 - ⌊px / sq⌋ : ℤ) : ℚ) + (sq - pymod px sq) := by
    conv_lhs => rw [hdec]
    push_cast
    ring
  have hT : 0 ≤ 2 * M - 1 - ⌊px / sq⌋ := by
    by_contra hneg
    push_neg at hneg
    have h1 : ((2 * M - 1 - ⌊px / sq⌋ : ℤ) : ℚ) ≤ -1 := by
      have : (2 * M - 1 - ⌊px / sq⌋ : ℤ) ≤ -1 := by omega
      exact_mod_cast this
    have hX0 : 0 ≤ 2 * (M : ℚ) * sq - px := by linarith
    rw [hXdec] at hX0
    nlinarith
  constructor
  · rw [hXdec]
    exact pyint_of_decomp sq _ _ hsq (by linarith) (by linarith) hT
  · rw [hXdec]
    exact pymod_of_decomp sq _ _ hsq (by linarith) (by linarith)

theorem upBlock_mirror (K : Consts) (tm : Tilemap) (M : ℤ) (px py : ℚ)
    (hsq : 0 < K.squareSize) (hx0 : 0 ≤ px)
    (hx1 : px ≤ 2 * (M : ℚ) * K.squareSize)
    (hf : pymod px K.squareSize ≠ 0) :
    mirrors M K.squareSize
      (upBlock K tm ⟨px, py, (0, -1), some CharacterEvents.moveUp⟩)
      (upBlock K (mirrorMap M tm)
        ⟨2 * (M : ℚ) * K.squareSize - px, py, (0, -1),
          some CharacterEvents.moveUp⟩) := by
  obtain ⟨hXt, hXm⟩ := mirror_tile_arith K.squareSize px M hsq hx0 hx1 hf
  have hxt : pyint (px / K.squareSize) = ⌊px / K.squareSize⌋ :=
    pyint_eq_floor _ (div_nonneg hx0 hsq.le)
  have hm0 : 0 ≤ pymod px K.squareSize := pymod_nonneg px K.squareSize hsq
  have hmlt : pymod px K.squareSize < K.squareSize := pymod_lt px K.squareSize hsq
  have hmpos : 0 < pymod px K.squareSize := lt_of_le_of_ne hm0 (Ne.symm hf)
  have mm0 : ∀ r : ℤ, mirrorMap M tm r (2 * M - 1 - ⌊px / K.squareSize⌋) =
      tm r ⌊px / K.squareSize⌋ := fun r => mirrorMap_self M tm r _
  have mmL : ∀ r : ℤ, mirrorMap M tm r ((2 * M - 1 - ⌊px / K.squareSize⌋) - 1) =
      tm r (⌊px / K.squareSize⌋ + 1) := by
    intro r
    have h : (2 * M - 1 - ⌊px / K.squareSize⌋) - 1 =
        2 * M - 1 - (⌊px / K.squareSize⌋ + 1) := by ring
    rw [h, mirrorMap_self]
  have mmR : ∀ r : ℤ, mirrorMap M tm r ((2 * M - 1 - ⌊px / K.squareSize⌋) + 1) =
      tm r (⌊px / K.squareSize⌋ - 1) := by
    intro r
    have h : (2 * M - 1 - ⌊px / K.squareSize⌋) + 1 =
        2 * M - 1 - (⌊px / K.squareSize⌋ - 1) := by ring
    rw [h, mirrorMap_self]
  by_cases hob : isObstacle K
      (tm (pyint ((py + K.squareSize / 2) / K.squareSize) - 1)
        ⌊px / K.squareSize⌋) = false
  · -- tile straight ahead open (in both the map and its mirror)
    have ho1 : isObstacle K
        (tm (pyint ((py + K.squareSize / 2) / K.squareSize) - 1)
          (pyint (px / K.squareSize))) = false := by rw [hxt]; exact hob
    have ho2 : isObstacle K
        (mirrorMap M tm (pyint ((py + K.squareSize / 2) / K.squareSize) - 1)
          (pyint ((2 * (M : ℚ) * K.squareSize - px) / K.squareSize))) = false := by
      rw [hXt, mm0]; exact hob
    by_cases hband : K.squareSize * (45/100) < pymod px K.squareSize ∧
        pymod px K.squareSize < K.squareSize * (55/100)
    · rw [upBlock_snap K tm ⟨px, py, (0, -1), some CharacterEvents.moveUp⟩ rfl
        ho1 hband]
      rw [upBlock_snap K (mirrorMap M tm)
        ⟨2 * (M : ℚ) * K.squareSize - px, py, (0, -1),
          some CharacterEvents.moveUp⟩ rfl ho2
        (by rw [hXm]; constructor <;> linarith [hband.1, hband.2])]
      refine ⟨by simp [mirrorEv], by simp, ?_, rfl⟩
      simp only
      rw [hXt, hxt]
      push_cast
      ring
    · by_cases hle : pymod px K.squareSize ≤ K.squareSize * (45/100)
      · rw [upBlock_center_right K tm
          ⟨px, py, (0, -1), some CharacterEvents.moveUp⟩ rfl ho1 hle]
        rw [upBlock_center_left K (mirrorMap M tm)
          ⟨2 * (M : ℚ) * K.squareSize - px, py, (0, -1),
            some CharacterEvents.moveUp⟩ rfl ho2
          (by rw [hXm]; intro hcon; linarith)
          (by rw [hXm]; intro hcon; linarith)]
        exact ⟨by simp [mirrorEv], by simp, rfl, rfl⟩
      · have hge : ¬(pymod px K.squareSize < K.squareSize * (55/100)) := by
          intro hcon
          exact hband ⟨lt_of_not_le hle, hcon⟩
        rw [upBlock_center_left K tm
          ⟨px, py, (0, -1), some CharacterEvents.moveUp⟩ rfl ho1 hge hle]
        rw [upBlock_center_right K (mirrorMap M tm)
          ⟨2 * (M : ℚ) * K.squareSize - px, py, (0, -1),
            some CharacterEvents.moveUp⟩ rfl ho2
          (by rw [hXm]; linarith [le_of_not_lt hge])]
        exact ⟨by simp [mirrorEv], by simp, rfl, rfl⟩
  · -- tile straight ahead blocked
    have hob2 : isObstacle K
        (tm (pyint ((py + K.squareSize / 2) / K.squareSize) - 1)
          ⌊px / K.squareSize⌋) = true := by
      revert hob
      cases isObstacle K
        (tm (pyint ((py + K.squareSize / 2) / K.squareSize) - 1)
          ⌊px / K.squareSize⌋) <;> simp
    have hb1 : isObstacle K
        (tm (pyint ((py + K.squareSize / 2) / K.squareSize) - 1)
          (pyint (px / K.squareSize))) = true := by rw [hxt]; exact hob2
    have hb2 : isObstacle K
        (mirrorMap M tm (pyint ((py + K.squareSize / 2) / K.squareSize) - 1)
          (pyint ((2 * (M : ℚ) * K.squareSize - px) / K.squareSize))) = true := by
      rw [hXt, mm0]; exact hob2
    by_cases hL : isObstacle K
        (tm (pyint ((py + K.squareSize / 2) / K.squareSize) - 1)
          (⌊px / K.squareSize⌋ - 1)) = false ∧
        pymod px K.squareSize < K.squareSize / 4
    · -- original takes the near-left corner assist
      rw [upBlock_corner_left K tm
        ⟨px, py, (0, -1), some CharacterEvents.moveUp⟩ rfl hb1
        ⟨by rw [hxt]; exact hL.1, hmpos, hL.2⟩]
      rw [upBlock_corner_right K (mirrorMap M tm)
        ⟨2 * (M : ℚ) * K.squareSize - px, py, (0, -1),
          some CharacterEvents.moveUp⟩ rfl hb2
        (by
          rintro ⟨hcon, -, hcon2⟩
          rw [hXm] at hcon2
          linarith)
        ⟨by rw [hXt, mmR]; exact hL.1,
         by rw [hXm]; constructor <;> linarith [hL.2]⟩]
      exact ⟨by simp [mirrorEv], by simp, rfl, rfl⟩
    · by_cases hR : isObstacle K
          (tm (pyint ((py + K.squareSize / 2) / K.squareSize) - 1)
            (⌊px / K.squareSize⌋ + 1)) = false ∧
          3 * K.squareSize / 4 < pymod px K.squareSize
      · -- original takes the near-right corner assist
        have hnl : ¬(isObstacle K
            (tm (pyint ((py + K.squareSize / 2) / K.squareSize) - 1)
              (pyint (px / K.squareSize) - 1)) = false ∧
            0 < pymod px K.squareSize ∧
            pymod px K.squareSize < K.squareSize / 4) := by
          rintro ⟨hc1, -, hc3⟩
          rw [hxt] at hc1
          exact hL ⟨hc1, hc3⟩
        rw [upBlock_corner_right K tm
          ⟨px, py, (0, -1), some CharacterEvents.moveUp⟩ rfl hb1 hnl
          ⟨by rw [hxt]; exact hR.1, hR.2, hmlt⟩]
        rw [upBlock_corner_left K (mirrorMap M tm)
          ⟨2 * (M : ℚ) * K.squareSize - px, py, (0, -1),
            some CharacterEvents.moveUp⟩ rfl hb2
          ⟨by rw [hXt, mmL]; exact hR.1,
           by rw [hXm]; linarith [hR.2],
           by rw [hXm]; linarith [hR.2]⟩]
        exact ⟨by simp [mirrorEv], by simp, rfl, rfl⟩
      · -- hard stop on both sides
        have hnl : ¬(isObstacle K
            (tm (pyint ((py + K.squareSize / 2) / K.squareSize) - 1)
              (pyint (px / K.squareSize) - 1)) = false ∧
            0 < pymod px K.squareSize ∧
            pymod px K.squareSize < K.squareSize / 4) := by
          rintro ⟨hc1, -, hc3⟩
          rw [hxt] at hc1
          exact hL ⟨hc1, hc3⟩
        have hnr : ¬(isObstacle K
            (tm (pyint ((py + K.squareSize / 2) / K.squareSize) - 1)
              (pyint (px / K.squareSize) + 1)) = false ∧
            3 * K.squareSize / 4 < pymod px K.squareSize ∧
            pymod px K.squareSize < K.squareSize) := by
          rintro ⟨hc1, hc2, -⟩
          rw [hxt] at hc1
          exact hR ⟨hc1, hc2⟩
        rw [upBlock_stop K tm
          ⟨px, py, (0, -1), some CharacterEvents.moveUp⟩ rfl hb1 hnl hnr]
        have hnl2 : ¬(isObstacle K
            (mirrorMap M tm (pyint ((py + K.squareSize / 2) / K.squareSize) - 1)
              (pyint ((2 * (M : ℚ) * K.squareSize - px) / K.squareSize) - 1)) = false ∧
            0 < pymod (2 * (M : ℚ) * K.squareSize - px) K.squareSize ∧
            pymod (2 * (M : ℚ) * K.squareSize - px) K.squareSize <
              K.squareSize / 4) := by
          rintro ⟨hc1, -, hc3⟩
          rw [hXt, mmL] at hc1
          rw [hXm] at hc3
          exact hR ⟨hc1, by linarith⟩
        have hnr2 : ¬(isObstacle K
            (mirrorMap M tm (pyint ((py + K.squareSize / 2) / K.squareSize) - 1)
              (pyint ((2 * (M : ℚ) * K.squareSize - px) / K.squareSize) + 1)) = false ∧
            3 * K.squareSize / 4 <
              pymod (2 * (M : ℚ) * K.squareSize - px) K.squareSize ∧
            pymod (2 * (M : ℚ) * K.squareSize - px) K.squareSize <
              K.squareSize) := by
          rintro ⟨hc1, hc2, -⟩
          rw [hXt, mmR] at hc1
          rw [hXm] at hc2
          exact hL ⟨hc1, by linarith⟩
        rw [upBlock_stop K (mirrorMap M tm)
          ⟨2 * (M : ℚ) * K.squareSize - px, py, (0, -1),
            some CharacterEvents.moveUp⟩ rfl hb2 hnl2 hnr2]
        exact ⟨by simp [mirrorEv], by simp, rfl, rfl⟩

theorem downBlock_mirror (K : Consts) (tm : Tilemap) (M : ℤ) (px py : ℚ)
    (hsq : 0 < K.squareSize) (hx0 : 0 ≤ px)
    (hx1 : px ≤ 2 * (M : ℚ) * K.squareSize)
    (hf : pymod px K.squareSize ≠ 0) :
    mirrors M K.squareSize
      (downBlock K tm ⟨px, py, (0, 1), some CharacterEvents.moveDown⟩)
      (downBlock K (mirrorMap M tm)
        ⟨2 * (M : ℚ) * K.squareSize - px, py, (0, 1),
          some CharacterEvents.moveDown⟩) := by
  obtain ⟨hXt, hXm⟩ := mirror_tile_arith K.squareSize px M hsq hx0 hx1 hf
  have hxt : pyint (px / K.squareSize) = ⌊px / K.squareSize⌋ :=
    pyint_eq_floor _ (div_nonneg hx0 hsq.le)
  have hm0 : 0 ≤ pymod px K.squareSize := pymod_nonneg px K.squareSize hsq
  have hmlt : pymod px K.squareSize < K.squareSize := pymod_lt px K.squareSize hsq
  have hmpos : 0 < pymod px K.squareSize := lt_of_le_of_ne hm0 (Ne.symm hf)
  have mm0 : ∀ r : ℤ, mirrorMap M tm r (2 * M - 1 - ⌊px / K.squareSize⌋) =
      tm r ⌊px / K.squareSize⌋ := fun r => mirrorMap_self M tm r _
  have mmL : ∀ r : ℤ, mirrorMap M tm r ((2 * M - 1 - ⌊px / K.squareSize⌋) - 1) =
      tm r (⌊px / K.squareSize⌋ + 1) := by
    intro r
    have h : (2 * M - 1 - ⌊px / K.squareSize⌋) - 1 =
        2 * M - 1 - (⌊px / K.squareSize⌋ + 1) := by ring
    rw [h, mirrorMap_self]
  have mmR : ∀ r : ℤ, mirrorMap M tm r ((2 * M - 1 - ⌊px / K.squareSize⌋) + 1) =
      tm r (⌊px / K.squareSize⌋ - 1) := by
    intro r
    have h : (2 * M - 1 - ⌊px / K.squareSize⌋) + 1 =
        2 * M - 1 - (⌊px / K.squareSize⌋ - 1) := by ring
    rw [h, mirrorMap_self]
  by_cases hob : isObstacle K
      (tm (pyint ((py - K.squareSize / 2 - 1) / K.squareSize) + 1)
        ⌊px / K.squareSize⌋) = false
  · -- tile straight ahead open (in both the map and its mirror)
    have ho1 : isObstacle K
        (tm (pyint ((py - K.squareSize / 2 - 1) / K.squareSize) + 1)
          (pyint (px / K.squareSize))) = false := by rw [hxt]; exact hob
    have ho2 : isObstacle K
        (mirrorMap M tm (pyint ((py - K.squareSize / 2 - 1) / K.squareSize) + 1)
          (pyint ((2 * (M : ℚ) * K.squareSize - px) / K.squareSize))) = false := by
      rw [hXt, mm0]; exact hob
    by_cases hband : K.squareSize * (45/100) < pymod px K.squareSize ∧
        pymod px K.squareSize < K.squareSize * (55/100)
    · rw [downBlock_snap K tm ⟨px, py, (0, 1), some CharacterEvents.moveDown⟩ rfl
        ho1 hband]
      rw [downBlock_snap K (mirrorMap M tm)
        ⟨2 * (M : ℚ) * K.squareSize - px, py, (0, 1),
          some CharacterEvents.moveDown⟩ rfl ho2
        (by rw [hXm]; constructor <;> linarith [hband.1, hband.2])]
      refine ⟨by simp [mirrorEv], by simp, ?_, rfl⟩
      simp only
      rw [hXt, hxt]
      push_cast
      ring
    · by_cases hle : pymod px K.squareSize ≤ K.squareSize * (45/100)
      · rw [downBlock_center_right K tm
          ⟨px, py, (0, 1), some CharacterEvents.moveDown⟩ rfl ho1 hle]
        rw [downBlock_center_left K (mirrorMap M tm)
          ⟨2 * (M : ℚ) * K.squareSize - px, py, (0, 1),
            some CharacterEvents.moveDown⟩ rfl ho2
          (by rw [hXm]; intro hcon; linarith)
          (by rw [hXm]; intro hcon; linarith)]
        exact ⟨by simp [mirrorEv], by simp, rfl, rfl⟩
      · have hge : ¬(pymod px K.squareSize < K.squareSize * (55/100)) := by
          intro hcon
          exact hband ⟨lt_of_not_le hle, hcon⟩
        rw [downBlock_center_left K tm
          ⟨px, py, (0, 1), some CharacterEvents.moveDown⟩ rfl ho1 hge hle]
        rw [downBlock_center_right K (mirrorMap M tm)
          ⟨2 * (M : ℚ) * K.squareSize - px, py, (0, 1),
            some CharacterEvents.moveDown⟩ rfl ho2
          (by rw [hXm]; linarith [le_of_not_lt hge])]
        exact ⟨by simp [mirrorEv], by simp, rfl, rfl⟩
  · -- tile straight ahead blocked
    have hob2 : isObstacle K
        (tm (pyint ((py - K.squareSize / 2 - 1) / K.squareSize) + 1)
          ⌊px / K.squareSize⌋) = true := by
      revert hob
      cases isObstacle K
        (tm (pyint ((py - K.squareSize / 2 - 1) / K.squareSize) + 1)
          ⌊px / K.squareSize⌋) <;> simp
    have hb1 : isObstacle K
        (tm (pyint ((py - K.squareSize / 2 - 1) / K.squareSize) + 1)
          (pyint (px / K.squareSize))) = true := by rw [hxt]; exact hob2
    have hb2 : isObstacle K
        (mirrorMap M tm (pyint ((py - K.squareSize / 2 - 1) / K.squareSize) + 1)
          (pyint ((2 * (M : ℚ) * K.squareSize - px) / K.squareSize))) = true := by
      rw [hXt, mm0]; exact hob2
    by_cases hL : isObstacle K
        (tm (pyint ((py - K.squareSize / 2 - 1) / K.squareSize) + 1)
          (⌊px / K.squareSize⌋ - 1)) = false ∧
        pymod px K.squareSize < K.squareSize / 4
    · -- original takes the near-left corner assist
      rw [downBlock_corner_left K tm
        ⟨px, py, (0, 1), some CharacterEvents.moveDown⟩ rfl hb1
        ⟨by rw [hxt]; exact hL.1, hm0, hL.2⟩]
      rw [downBlock_corner_right K (mirrorMap M tm)
        ⟨2 * (M : ℚ) * K.squareSize - px, py, (0, 1),
          some CharacterEvents.moveDown⟩ rfl hb2
        (by
          rintro ⟨hcon, -, hcon2⟩
          rw [hXm] at hcon2
          linarith)
        ⟨by rw [hXt, mmR]; exact hL.1,
         by rw [hXm]; constructor <;> linarith [hL.2]⟩]
      exact ⟨by simp [mirrorEv], by simp, rfl, rfl⟩
    · by_cases hR : isObstacle K
          (tm (pyint ((py - K.squareSize / 2 - 1) / K.squareSize) + 1)
            (⌊px / K.squareSize⌋ + 1)) = false ∧
          3 * K.squareSize / 4 < pymod px K.squareSize
      · -- original takes the near-right corner assist
        have hnl : ¬(isObstacle K
            (tm (pyint ((py - K.squareSize / 2 - 1) / K.squareSize) + 1)
              (pyint (px / K.squareSize) - 1)) = false ∧
            0 ≤ pymod px K.squareSize ∧
            pymod px K.squareSize < K.squareSize / 4) := by
          rintro ⟨hc1, -, hc3⟩
          rw [hxt] at hc1
          exact hL ⟨hc1, hc3⟩
        rw [downBlock_corner_right K tm
          ⟨px, py, (0, 1), some CharacterEvents.moveDown⟩ rfl hb1 hnl
          ⟨by rw [hxt]; exact hR.1, hR.2, hmlt⟩]
        rw [downBlock_corner_left K (mirrorMap M tm)
          ⟨2 * (M : ℚ) * K.squareSize - px, py, (0, 1),
            some CharacterEvents.moveDown⟩ rfl hb2
          ⟨by rw [hXt, mmL]; exact hR.1,
           by rw [hXm]; linarith [hR.2],
           by rw [hXm]; linarith [hR.2]⟩]
        exact ⟨by simp [mirrorEv], by simp, rfl, rfl⟩
      · -- hard stop on both sides
        have hnl : ¬(isObstacle K
            (tm (pyint ((py - K.squareSize / 2 - 1) / K.squareSize) + 1)
              (pyint (px / K.squareSize) - 1)) = false ∧
            0 ≤ pymod px K.squareSize ∧
            pymod px K.squareSize < K.squareSize / 4) := by
          rintro ⟨hc1, -, hc3⟩
          rw [hxt] at hc1
          exact hL ⟨hc1, hc3⟩
        have hnr : ¬(isObstacle K
            (tm (pyint ((py - K.squareSize / 2 - 1) / K.squareSize) + 1)
              (pyint (px / K.squareSize) + 1)) = false ∧
            3 * K.squareSize / 4 < pymod px K.squareSize ∧
            pymod px K.squareSize < K.squareSize) := by
          rintro ⟨hc1, hc2, -⟩
          rw [hxt] at hc1
          exact hR ⟨hc1, hc2⟩
        rw [downBlock_stop K tm
          ⟨px, py, (0, 1), some CharacterEvents.moveDown⟩ rfl hb1 hnl hnr]
        have hnl2 : ¬(isObstacle K
            (mirrorMap M tm (pyint ((py - K.squareSize / 2 - 1) / K.squareSize) + 1)
              (pyint ((2 * (M : ℚ) * K.squareSize - px) / K.squareSize) - 1)) = false ∧
            0 ≤ pymod (2 * (M : ℚ) * K.squareSize - px) K.squareSize ∧
            pymod (2 * (M : ℚ) * K.squareSize - px) K.squareSize <
              K.squareSize / 4) := by
          rintro ⟨hc1, -, hc3⟩
          rw [hXt, mmL] at hc1
          rw [hXm] at hc3
          exact hR ⟨hc1, by linarith⟩
        have hnr2 : ¬(isObstacle K
            (mirrorMap M tm (pyint ((py - K.squareSize / 2 - 1) / K.squareSize) + 1)
              (pyint ((2 * (M : ℚ) * K.squareSize - px) / K.squareSize) + 1)) = false ∧
            3 * K.squareSize / 4 <
              pymod (2 * (M : ℚ) * K.squareSize - px) K.squareSize ∧
            pymod (2 * (M : ℚ) * K.squareSize - px) K.squareSize <
              K.squareSize) := by
          rintro ⟨hc1, hc2, -⟩
          rw [hXt, mmR] at hc1
          rw [hXm] at hc2
          exact hL ⟨hc1, by linarith⟩
        rw [downBlock_stop K (mirrorMap M tm)
          ⟨2 * (M : ℚ) * K.squareSize - px, py, (0, 1),
            some CharacterEvents.moveDown⟩ rfl hb2 hnl2 hnr2]
        exact ⟨by simp [mirrorEv], by simp, rfl, rfl⟩

/-- C2 (amended): for the up and down resolver blocks, at any
sub-tile offset strictly inside a tile (`x % sq` nonzero), mirroring
the obstacle layout left-right and reflecting the position mirrors the
resolution: the event is mirrored (left and right redirects swap,
stops stay stops), the horizontal direction is negated, and the
positions are reflected.  (As stated over all offsets the claim is
false: at offset 0 the mirrored offset is again 0, band membership is
asymmetric, and the decision does not mirror — see the
counterexample.  The left/right resolver blocks also sample their
target column through an extra one-pixel shift, which breaks exact
mirroring within one pixel of the centerline, so the amended statement
is about the up/down blocks the claim's sources cite.) -/
theorem claim_C2_amended (K : Consts) (tm : Tilemap) (M : ℤ) (px py : ℚ)
    (hsq : 0 < K.squareSize) (hx0 : 0 ≤ px)
    (hx1 : px ≤ 2 * (M : ℚ) * K.squareSize)
    (hf : pymod px K.squareSize ≠ 0) :
    mirrors M K.squareSize
      (upBlock K tm ⟨px, py, (0, -1), some CharacterEvents.moveUp⟩)
      (upBlock K (mirrorMap M tm)
        ⟨2 * (M : ℚ) * K.squareSize - px, py, (0, -1),
          some CharacterEvents.moveUp⟩)
    ∧ mirrors M K.squareSize
      (downBlock K tm ⟨px, py, (0, 1), some CharacterEvents.moveDown⟩)
      (downBlock K (mirrorMap M tm)
        ⟨2 * (M : ℚ) * K.squareSize - px, py, (0, 1),
          some CharacterEvents.moveDown⟩) :=
  ⟨upBlock_mirror K tm M px py hsq hx0 hx1 hf,
   downBlock_mirror K tm M px py hsq hx0 hx1 hf⟩

/-- C2, counterexample: at sub-tile offset f = 0 (position 40, tile
size 20, so `x % sq = 0`) in a fully open layout, a MOVE_DOWN resolve
redirects RIGHT; the left-right mirrored layout (about `x = 2*sq`,
under which position 40 maps again to 40 = 2*2*20 - 40, i.e. offset
1-f wraps to 0) also redirects RIGHT, whereas mirror symmetry demands
the mirrored redirect LEFT.  Hence mirroring the layout and replacing
f by 1-f does not always mirror the redirect decision. -/
theorem claim_C2_counterexample :
    pymod 40 constsEx.squareSize = 0
    ∧ (40 : ℚ) = 2 * ((2 : ℤ) : ℚ) * constsEx.squareSize - 40
    ∧ (moveResolve constsEx tmOpen
        ⟨40, 50, (0, 1), some CharacterEvents.moveDown⟩).ev
        = some CharacterEvents.moveRight
    ∧ (moveResolve constsEx (mirrorMap 2 tmOpen)
        ⟨40, 50, (0, 1), some CharacterEvents.moveDown⟩).ev
        = some CharacterEvents.moveRight
    ∧ mirrorEv (some CharacterEvents.moveRight) ≠ some CharacterEvents.moveRight := by
  have e2 : downBlock constsEx tmOpen
      ⟨40, 50, (0, 1), some CharacterEvents.moveDown⟩ =
      ⟨40, 50, (1, 0), some CharacterEvents.moveRight⟩ := by
    rw [downBlock_center_right constsEx tmOpen
      ⟨40, 50, (0, 1), some CharacterEvents.moveDown⟩ rfl
      (by simp [isObstacle, obstacles, constsEx, tmOpen])
      (by norm_num [pymod, constsEx])]
  have e3 : rightBlock constsEx tmOpen
      ⟨40, 50, (1, 0), some CharacterEvents.moveRight⟩ =
      ⟨40, 50, (1, 0), some CharacterEvents.moveRight⟩ := by
    rw [rightBlock_snap constsEx tmOpen
      ⟨40, 50, (1, 0), some CharacterEvents.moveRight⟩ rfl
      (by simp [isObstacle, obstacles, constsEx, tmOpen])
      (by norm_num [pymod, constsEx])]
    norm_num [pyint, constsEx]
  have e2m : downBlock constsEx (mirrorMap 2 tmOpen)
      ⟨40, 50, (0, 1), some CharacterEvents.moveDown⟩ =
      ⟨40, 50, (1, 0), some CharacterEvents.moveRight⟩ := by
    rw [downBlock_center_right constsEx (mirrorMap 2 tmOpen)
      ⟨40, 50, (0, 1), some CharacterEvents.moveDown⟩ rfl
      (by simp [isObstacle, obstacles, constsEx, tmOpen, mirrorMap])
      (by norm_num [pymod, constsEx])]
  have e3m : rightBlock constsEx (mirrorMap 2 tmOpen)
      ⟨40, 50, (1, 0), some CharacterEvents.moveRight⟩ =
      ⟨40, 50, (1, 0), some CharacterEvents.moveRight⟩ := by
    rw [rightBlock_snap constsEx (mirrorMap 2 tmOpen)
      ⟨40, 50, (1, 0), some CharacterEvents.moveRight⟩ rfl
      (by simp [isObstacle, obstacles, constsEx, tmOpen, mirrorMap])
      (by norm_num [pymod, constsEx])]
    norm_num [pyint, constsEx]
  refine ⟨by norm_num [pymod, constsEx], by norm_num [constsEx], ?_, ?_, by simp [mirrorEv]⟩
  · unfold moveResolve
    rw [upBlock_noop _ _ _ (by simp), e2, e3, leftBlock_noop _ _ _ (by simp)]
  · unfold moveResolve
    rw [upBlock_noop _ _ _ (by simp), e2m, e3m, leftBlock_noop _ _ _ (by simp)]

/-! ### Concrete instantiations of the claims -/

theorem claim_C1_witness :
    (0 : ℚ) < constsEx.squareSize
    ∧ moveResolve constsEx tmOpen ⟨50, 50, (0, -1), some CharacterEvents.moveUp⟩ =
        ⟨((pyint ((50 : ℚ) / constsEx.squareSize) : ℚ) + 1/2) * constsEx.squareSize,
          50, (0, -1), some CharacterEvents.moveUp⟩ :=
  ⟨by norm_num [constsEx],
   (claim_C1 constsEx tmOpen 50 50 (by norm_num [constsEx])).1.1
     (by simp [isObstacle, obstacles, constsEx, tmOpen])
     (by norm_num [pymod, constsEx])
     (by norm_num [pymod, constsEx])⟩

theorem claim_C2_amended_witness :
    ((0 : ℚ) < constsEx.squareSize ∧ (0 : ℚ) ≤ 15
      ∧ (15 : ℚ) ≤ 2 * ((2 : ℤ) : ℚ) * constsEx.squareSize
      ∧ pymod 15 constsEx.squareSize ≠ 0)
    ∧ (mirrors 2 constsEx.squareSize
        (upBlock constsEx tmWall ⟨15, 50, (0, -1), some CharacterEvents.moveUp⟩)
        (upBlock constsEx (mirrorMap 2 tmWall)
          ⟨2 * ((2 : ℤ) : ℚ) * constsEx.squareSize - 15, 50, (0, -1),
            some CharacterEvents.moveUp⟩)
      ∧ mirrors 2 constsEx.squareSize
        (downBlock constsEx tmWall ⟨15, 50, (0, 1), some CharacterEvents.moveDown⟩)
        (downBlock constsEx (mirrorMap 2 tmWall)
          ⟨2 * ((2 : ℤ) : ℚ) * constsEx.squareSize - 15, 50, (0, 1),
            some CharacterEvents.moveDown⟩)) :=
  ⟨⟨by norm_num [constsEx], by norm_num,
    by norm_num [constsEx], by norm_num [pymod, constsEx]⟩,
   claim_C2_amended constsEx tmWall 2 15 50 (by norm_num [constsEx])
     (by norm_num) (by norm_num [constsEx]) (by norm_num [pymod, constsEx])⟩

theorem claim_C3_amended_witness :
    (key_down (special_event charEx CharacterEvents.win) PyKey.left).newEvent
      = some CharacterEvents.win
    ∧ key_up (special_event charEx CharacterEvents.win) PyKey.left
      = special_event charEx CharacterEvents.win
    ∧ charEx.dieDone = false
    ∧ ({ charEx with
          event := some CharacterEvents.win,
          newEvent := some CharacterEvents.win,
          gotSpecialEvent := false } : Character).gotSpecialEvent = false := by
  have h := claim_C3_amended constsEx tmOpen 30 charEx CharacterEvents.win
  refine ⟨h.1 PyKey.left, h.2.1 (Or.inl rfl) PyKey.left, rfl, ?_⟩
  have hupd : Character.update constsEx tmOpen 30
      (special_event charEx CharacterEvents.win) = some (true,
      { charEx with
          event := some CharacterEvents.win,
          newEvent := some CharacterEvents.win,
          gotSpecialEvent := false }) := by
    simp [Character.update, special_event, charEx]
  exact h.2.2 rfl true _ hupd

theorem claim_C4_witness :
    ({ charEx with dieDone := true } : Character).dieDone = true
    ∧ Character.update constsEx tmOpen 30 { charEx with dieDone := true } =
        some (false, { charEx with dieDone := true }) :=
  ⟨rfl, claim_C4 constsEx tmOpen 30 { charEx with dieDone := true } rfl⟩

theorem claim_C5_witness :
    charEx.placedBombs < charEx.totalBombs
    ∧ place_bomb charEx =
        (true, { charEx with placedBombs := charEx.placedBombs + 1 })
    ∧ (bomb_exploded (place_bomb charEx).2).placedBombs = charEx.placedBombs
    ∧ ((placeN charEx.totalBombs.toNat charEx).1 = charEx.totalBombs.toNat
      ∧ (place_bomb (placeN charEx.totalBombs.toNat charEx).2).1 = false) := by
  have h := claim_C5 charEx
  exact ⟨by norm_num [charEx], h.1 (by norm_num [charEx]),
    h.2.2.1 (by norm_num [charEx]),
    h.2.2.2 (by norm_num [charEx]) (by norm_num [charEx])⟩

theorem claim_C6_witness :
    ({ charEx with newEvent := some CharacterEvents.win } : Character).newEvent
      = some CharacterEvents.win
    ∧ key_up { charEx with newEvent := some CharacterEvents.win } PyKey.left
      = { charEx with newEvent := some CharacterEvents.win }
    ∧ applyEdges { charEx with newEvent := some CharacterEvents.win }
        [KeyEdge.press PyKey.down, KeyEdge.release PyKey.down]
      = { charEx with newEvent := some CharacterEvents.win } := by
  have h := claim_C6 { charEx with newEvent := some CharacterEvents.win }
    (Or.inl rfl)
  exact ⟨rfl, h.1 PyKey.left, h.2.2 _⟩

theorem claim_C7_witness :
    charEx.gotSpecialEvent = false
    ∧ charEx.newEvent ≠ some CharacterEvents.win
    ∧ charEx.newEvent ≠ some CharacterEvents.die
    ∧ velocityPriority (key_down charEx PyKey.down)
    ∧ velocityPriority (key_up charEx PyKey.down) := by
  have h := claim_C7 charEx PyKey.down rfl (by simp [charEx]) (by simp [charEx])
  exact ⟨rfl, by simp [charEx], by simp [charEx], h.1, h.2⟩

theorem claim_C8_witness :
    ({ charEx with newEvent := some CharacterEvents.increaseSpeed }
      : Character).newEvent = some CharacterEvents.increaseSpeed
    ∧ ({ charEx with
          event := some CharacterEvents.increaseSpeed,
          newEvent := none, gotSpecialEvent := false,
          speed := 2 } : Character).speed ≤ constsEx.maxSpeed
    ∧ (key_down charEx PyKey.left).speed = charEx.speed
    ∧ (key_up charEx PyKey.left).speed = charEx.speed
    ∧ (place_bomb charEx).2.speed = charEx.speed
    ∧ (bomb_exploded charEx).speed = charEx.speed
    ∧ (special_event charEx CharacterEvents.die).speed = charEx.speed := by
  have h := claim_C8 constsEx tmOpen 30
    { charEx with newEvent := some CharacterEvents.increaseSpeed }
  have h0 := claim_C8 constsEx tmOpen 30 charEx
  have hupd : Character.update constsEx tmOpen 30
      { charEx with newEvent := some CharacterEvents.increaseSpeed } =
      some (true, { charEx with
        event := some CharacterEvents.increaseSpeed,
        newEvent := none, gotSpecialEvent := false, speed := 2 }) := by
    norm_num [Character.update, charEx, constsEx]
  exact ⟨rfl, h.2.1 rfl rfl true _ hupd, h0.2.2.1 PyKey.left,
    h0.2.2.2.1 PyKey.left, h0.2.2.2.2.1, h0.2.2.2.2.2.1,
    h0.2.2.2.2.2.2 CharacterEvents.die⟩

theorem claim_C9_witness :
    ((0 : ℚ) < constsEx.squareSize ∧ (25 : ℚ) ≠ 0
      ∧ ({ charEx with newEvent := some CharacterEvents.moveUp }
          : Character).dieDone = false
      ∧ pymod ({ charEx with newEvent := some CharacterEvents.moveUp }
          : Character).poseX constsEx.squareSize = constsEx.squareSize / 2)
    ∧ ∃ c2, Character.update constsEx tmOpen 25
        { charEx with newEvent := some CharacterEvents.moveUp } =
          some (true, c2)
      ∧ c2.poseX = ({ charEx with newEvent := some CharacterEvents.moveUp }
          : Character).poseX
      ∧ c2.poseY = ({ charEx with newEvent := some CharacterEvents.moveUp }
            : Character).poseY -
          ({ charEx with newEvent := some CharacterEvents.moveUp }
            : Character).speed * constsEx.squareSize / 25 :=
  ⟨⟨by norm_num [constsEx], by norm_num, rfl, by norm_num [pymod, charEx, constsEx]⟩,
   claim_C9 constsEx tmOpen 25
     { charEx with newEvent := some CharacterEvents.moveUp }
     (by norm_num [constsEx]) (by norm_num) rfl rfl
     (by norm_num [charEx]) (by norm_num [pymod, charEx, constsEx])
     (by simp [isObstacle, obstacles, constsEx, tmOpen])⟩

theorem claim_C10_witness :
    ((25 : ℚ) ≠ 0 ∧ (Character.update constsEx tmOpen 25 charEx).isSome = true)
    ∧ (({ charEx with newEvent := some CharacterEvents.moveUp }
        : Character).dieDone = false
      ∧ Character.update constsEx tmOpen 0
          { charEx with newEvent := some CharacterEvents.moveUp } = none) :=
  ⟨⟨by norm_num, (claim_C10 constsEx tmOpen 25 charEx).1 (by norm_num)⟩,
   ⟨rfl, (claim_C10 constsEx tmOpen 0
       { charEx with newEvent := some CharacterEvents.moveUp }).2
     rfl rfl (Or.inl rfl)⟩⟩
